import Mathlib

/-!
Shallow embedding of the Java-runtime resolution pipeline of the
Obsidian-Launcher repository (src/JavaManager.cpp, src/JavaDownloader.cpp,
src/Utils/OS.cpp), together with proofs about the claims of the
specification.

Modelling conventions:
* a filesystem path is a list of components (`Path`);
* the filesystem is an explicit state `FS`: an ordered list of existing
  directories and an ordered list of existing regular files.  The order of
  `FS.dirs` models the (unspecified) order of `std::filesystem::
  directory_iterator`;
* the C++ functions return an empty `std::filesystem::path` on failure; the
  embedding returns `Option Path` (`none` ↔ empty path);
* network responses, JSON documents fetched from the network, the digests
  computed by `Utils::calculateFileSHA1/256` and the outcomes of the
  minizip-ng calls are oracle inputs (environment records), since they are
  produced by external collaborators; everything the repository's own code
  does with them is translated faithfully.
-/

namespace Launcher

/-- A filesystem path, as its list of components. -/
abbrev Path : Type := List String

/-- Bool-valued test that `a` is a (not necessarily strict) leading
segment of `b`. -/
def isPathPrefixOf {α : Type} [DecidableEq α] : List α → List α → Bool
  | [], _ => true
  | _, [] => false
  | a :: as, b :: bs => a = b && isPathPrefixOf as bs

/-- All nonempty leading segments of a path (used to model
`std::filesystem::create_directories`, which creates intermediates). -/
def pathPrefixes : List String → List (List String)
  | [] => []
  | a :: as => [a] :: (pathPrefixes as).map (fun q => a :: q)

/-- The filesystem state: existing directories and existing regular files.
List order of `dirs` models directory-iteration order. -/
structure FS where
  dirs : List (List String)
  files : List (List String)
deriving DecidableEq

/-- Test for `std::filesystem::is_directory`. -/
def FS.isDir (fs : FS) (p : Path) : Bool := fs.dirs.contains p

/-- Test for `std::filesystem::is_regular_file` (together with existence). -/
def FS.isFile (fs : FS) (p : Path) : Bool := fs.files.contains p

/-- Test for `std::filesystem::exists`. -/
def FS.existsPath (fs : FS) (p : Path) : Bool := fs.isDir p || fs.isFile p

/-- Record one directory as existing (no effect if already present). -/
def FS.addDir (fs : FS) (p : List String) : FS :=
  if fs.dirs.contains p then fs else { fs with dirs := fs.dirs ++ [p] }

/-- Model of `std::filesystem::create_directories`: the directory and all
its intermediates come into existence. -/
def FS.createDirs (fs : FS) (p : List String) : FS :=
  (pathPrefixes p).foldl FS.addDir fs

/-- Record one regular file as existing (no effect if already present). -/
def FS.addFile (fs : FS) (p : List String) : FS :=
  if fs.files.contains p then fs else { fs with files := fs.files ++ [p] }

/-- Model of `std::filesystem::remove` on a regular file. -/
def FS.removeFile (fs : FS) (p : List String) : FS :=
  { fs with files := fs.files.filter (fun q => !(q = p : Bool)) }

/-- Model of `std::filesystem::remove_all`: the path and everything below
it disappear. -/
def FS.removeAllUnder (fs : FS) (p : List String) : FS :=
  { dirs := fs.dirs.filter (fun q => !(isPathPrefixOf p q)),
    files := fs.files.filter (fun q => !(isPathPrefixOf p q)) }

/-- Immediate subdirectories of `p`, in directory-iteration order
(models the `entry.is_directory()` entries of `directory_iterator(p)`). -/
def FS.subdirsOf (fs : FS) (p : Path) : List Path :=
  fs.dirs.filter (fun d => !(d = ([] : List String) : Bool) && d.dropLast = p)

/-- Last path component, as `std::filesystem::path::filename` on the
directory paths the scan iterates over. -/
def pathFilename (p : Path) : String := List.getLastD p ""

/-- Parent path (`std::filesystem::path::parent_path`). -/
def pathParent (p : Path) : Path := List.dropLast p

/-- Whitespace test of `std::isspace` in the default locale, used by
`std::stoul`'s leading-whitespace skipping. -/
def isCppSpace (c : Char) : Bool :=
  c = ' ' || c = '\t' || c = '\n' || c = '\x0b' || c = '\x0c' || c = '\r'

/-- Value of a digit list in base 10. -/
def digitsVal (ds : List Char) : Nat :=
  ds.foldl (fun a c => a * 10 + (c.toNat - 48)) 0

/-- The largest value representable in `unsigned long` (LP64). -/
def ULONG_MAX : Nat := 2 ^ 64 - 1

/-- Modulus of `unsigned int`. -/
def UINT_MOD : Nat := 2 ^ 32

/-- Model of `std::stoul(s)` (base 10, LP64 `unsigned long`): skip leading
whitespace, accept one optional sign, then require at least one decimal
digit; the maximal digit run is converted.  `none` models a thrown
`std::invalid_argument` (no digits) or `std::out_of_range` (overflow).
A minus sign negates in the unsigned result type. -/
def stoul (s : String) : Option Nat :=
  let cs := s.data.dropWhile isCppSpace
  let signAndRest : Bool × List Char :=
    match cs with
    | '-' :: rest => (true, rest)
    | '+' :: rest => (false, rest)
    | _ => (false, cs)
  let ds := signAndRest.2.takeWhile Char.isDigit
  if ds.isEmpty then none
  else
    let v := digitsVal ds
    if v > ULONG_MAX then none
    else if signAndRest.1 then some ((2 ^ 64 - v % 2 ^ 64) % 2 ^ 64)
    else some v

/-- Digit characters of `n` in base 10, most significant first; `fuel`
bounds the recursion depth (any `fuel > n` suffices). -/
def natDigitsGo : Nat → Nat → List Char → List Char
  | 0, _, acc => acc
  | fuel + 1, n, acc =>
    let d := Char.ofNat (48 + n % 10)
    if n < 10 then d :: acc else natDigitsGo fuel (n / 10) (d :: acc)

/-- Model of `std::to_string` on an unsigned integer. -/
def natToString (n : Nat) : String := String.mk (natDigitsGo (n + 1) n [])

/-- First index of `c` in a character list (`std::string::find`). -/
def findCharIdxGo (c : Char) : List Char → Nat → Option Nat
  | [], _ => none
  | x :: xs, i => if x = c then some i else findCharIdxGo c xs (i + 1)

/-- First index of `c` (`std::string::find`); `none` models `npos`. -/
def findCharIdx (c : Char) (cs : List Char) : Option Nat := findCharIdxGo c cs 0

/-- Last index of `c` in a character list (`std::string::rfind`);
`none` models `npos`. -/
def rfindCharIdxGo (c : Char) : List Char → Nat → Option Nat
  | [], _ => none
  | x :: xs, i =>
    match rfindCharIdxGo c xs (i + 1) with
    | some j => some j
    | none => if x = c then some i else none

/-- Last index of `c` (`std::string::rfind`); `none` models `npos`. -/
def rfindCharIdx (c : Char) (cs : List Char) : Option Nat := rfindCharIdxGo c cs 0

/-- Operating system enumeration of `Launcher::Utils::OperatingSystem`. -/
inductive OperatingSystem where
  | WINDOWS
  | MACOS
  | LINUX
  | UNKNOWN
deriving DecidableEq

/-- Architecture enumeration of `Launcher::Utils::Architecture`. -/
inductive Architecture where
  | X64
  | X86
  | ARM64
  | ARM32
  | UNKNOWN
deriving DecidableEq

/-- Translation of `Utils::getOSStringForJavaManifest` (src/OSUtil.cpp). -/
def getOSStringForJavaManifest (os : OperatingSystem) (arch : Architecture) : String :=
  match os, arch with
  | .WINDOWS, .X64 => "windows-x64"
  | .WINDOWS, .X86 => "windows-x86"
  | .WINDOWS, .ARM64 => "windows-arm64"
  | .MACOS, .X64 => "mac-os"
  | .MACOS, .ARM64 => "mac-os-arm64"
  | .LINUX, .X64 => "linux"
  | .LINUX, .ARM64 => "linux-aarch64"
  | .LINUX, .ARM32 => "linux-arm"
  | _, _ => "unknown-os-arch-mojang"

/-- Translation of `Utils::getOSStringForAdoptium` (src/OSUtil.cpp). -/
def getOSStringForAdoptium (os : OperatingSystem) : String :=
  match os with
  | .WINDOWS => "windows"
  | .MACOS => "mac"
  | .LINUX => "linux"
  | .UNKNOWN => ""

/-- Translation of `Utils::getArchStringForAdoptium` (src/OSUtil.cpp). -/
def getArchStringForAdoptium (arch : Architecture) : String :=
  match arch with
  | .X64 => "x64"
  | .X86 => "x86"
  | .ARM64 => "aarch64"
  | .ARM32 => "arm"
  | .UNKNOWN => ""

/-- The `JavaVersion` requirement structure (component, majorVersion). -/
structure JavaVersion where
  component : String
  majorVersion : Nat
deriving DecidableEq

/-- The part of the `Version` descriptor the Java pipeline consumes. -/
structure Version where
  id : String
  javaVersion : Option JavaVersion
deriving DecidableEq

/-- The part of `Config` the Java pipeline consumes. -/
structure Config where
  javaRuntimesDir : Path
deriving DecidableEq

/-- The `JavaRuntime` registry record (include/Launcher/JavaManager.hpp). -/
structure JavaRuntime where
  homePath : Path
  javaExecutablePath : Path
  majorVersion : Nat
  componentName : String
  source : String
deriving DecidableEq

/-- Observable side effects of a resolution run: network requests issued
(`Http::Get` / `Http::Download`) and archive extractions attempted. -/
inductive Event where
  | netRequest (url : String)
  | extraction (archivePath extractionDir : Path)
deriving DecidableEq

/-- Translation of `JavaManager::getExtractionPathForRuntime`
(src/JavaManager.cpp lines 42-45): directory name is
`component + "_" + std::to_string(majorVersion)` under the runtimes root. -/
def getExtractionPathForRuntime (javaRuntimesDir : Path) (javaVersion : JavaVersion) : Path :=
  javaRuntimesDir ++ [javaVersion.component ++ "_" ++ natToString javaVersion.majorVersion]

/-- The home-resolution stage of `JavaManager::findJavaExecutable`
(src/JavaManager.cpp lines 166-208): the root itself when it directly
holds `bin`; else a single subdirectory; else the first of several
subdirectories that holds `bin` or a regular `release` file. -/
def resolvedJavaHome (fs : FS) (extractionBaseDir : Path) : Option Path :=
  if fs.isDir (extractionBaseDir ++ ["bin"]) then some extractionBaseDir
  else
    match fs.subdirsOf extractionBaseDir with
    | [only] => some only
    | [] => none
    | subdirs =>
      subdirs.find? (fun subdir =>
        fs.isDir (subdir ++ ["bin"]) || fs.isFile (subdir ++ ["release"]))

/-- The bin-directory stage of `findJavaExecutable`
(src/JavaManager.cpp lines 211-219): on macOS a `Contents/Home/bin`
bundle layout is preferred when present. -/
def resolvedBinDir (fs : FS) (os : OperatingSystem) (javaHomePath : Path) : Path :=
  if os = .MACOS && fs.isDir (javaHomePath ++ ["Contents", "Home", "bin"]) then
    javaHomePath ++ ["Contents", "Home", "bin"]
  else javaHomePath ++ ["bin"]

/-- The executable-name stage of `findJavaExecutable`
(src/JavaManager.cpp lines 226-235): `javaw.exe` preferred over `java.exe`
on a Windows build, `java` elsewhere. -/
def javaExeCandidate (fs : FS) (isWinBuild : Bool) (binDir : Path) : Path :=
  if isWinBuild then
    if fs.isFile (binDir ++ ["javaw.exe"]) then binDir ++ ["javaw.exe"]
    else binDir ++ ["java.exe"]
  else binDir ++ ["java"]

/-- Translation of `JavaManager::findJavaExecutable`
(src/JavaManager.cpp lines 156-244).  `isWinBuild` models the
`_WIN32/_WIN64` compile-time branch; `os` the runtime `getCurrentOS()`.
`none` models the empty-path failure return. -/
def findJavaExecutable (fs : FS) (isWinBuild : Bool) (os : OperatingSystem)
    (extractionBaseDir : Path) : Option Path :=
  if !(fs.isDir extractionBaseDir) then none
  else
    match resolvedJavaHome fs extractionBaseDir with
    | none => none
    | some javaHomePath =>
      let binDir := resolvedBinDir fs os javaHomePath
      if !(fs.isDir binDir) then none
      else
        let javaExePath := javaExeCandidate fs isWinBuild binDir
        if fs.isFile javaExePath then some javaExePath else none

/-- Outcome of parsing a runtime directory name during the startup scan. -/
structure ScanParse where
  source : String
  component : String
  majorVersion : Nat
deriving DecidableEq

/-- Translation of the directory-name parsing inside
`JavaManager::scanForExistingRuntimes` (src/JavaManager.cpp lines 348-372):
major version from the text after the last `'_'` via `std::stoul`, then the
remainder split at its first `'_'` into source and component when an inner
`'_'` is present, else the whole remainder is the component with source
`"user_provided"`.  Defaults `source = component = "unknown"`,
`majorVersion = 0` are kept on any parse failure. -/
def parseRuntimeDirName (dirName : String) : ScanParse :=
  let cs := dirName.data
  let d0 : ScanParse := { source := "unknown", component := "unknown", majorVersion := 0 }
  match rfindCharIdx '_' cs with
  | none => d0
  | some lastUnderscore =>
    if lastUnderscore < cs.length - 1 then
      match stoul (String.mk (cs.drop (lastUnderscore + 1))) with
      | none => d0
      | some mvRaw =>
        let mv := mvRaw % UINT_MOD
        let pre := cs.take lastUnderscore
        match findCharIdx '_' pre with
        | some firstUnderscore =>
          if firstUnderscore < pre.length - 1 then
            { source := String.mk (pre.take firstUnderscore),
              component := String.mk (pre.drop (firstUnderscore + 1)),
              majorVersion := mv }
          else
            { source := "user_provided", component := String.mk pre, majorVersion := mv }
        | none =>
          { source := "user_provided", component := String.mk pre, majorVersion := mv }
    else d0

/-- Translation of `JavaManager::scanForExistingRuntimes`
(src/JavaManager.cpp lines 332-389): every immediate subdirectory of the
runtimes root whose name does not start with `"_downloads"` is probed with
`findJavaExecutable`; on success its name is parsed and a record is pushed
when `majorVersion > 0`, the component is not `"unknown"` and not empty.
The registry is cleared first, so the result is exactly the produced list. -/
def scanForExistingRuntimes (fs : FS) (isWinBuild : Bool) (os : OperatingSystem)
    (javaRuntimesDir : Path) : List JavaRuntime :=
  if !(fs.isDir javaRuntimesDir) then []
  else
    (fs.subdirsOf javaRuntimesDir).filterMap (fun d =>
      let dirName := pathFilename d
      if isPathPrefixOf "_downloads".data dirName.data then none
      else
        match findJavaExecutable fs isWinBuild os d with
        | none => none
        | some javaExe =>
          let p := parseRuntimeDirName dirName
          if p.majorVersion > 0 && !(p.component = "unknown" : Bool) &&
              !(p.component = "" : Bool) then
            some { homePath := pathParent (pathParent javaExe),
                   javaExecutablePath := javaExe,
                   majorVersion := p.majorVersion,
                   componentName := p.component,
                   source := p.source }
          else none)

/-- A JSON value at `entry.version.name` in the Mojang runtime manifest:
an unsigned number, a string, or any other JSON shape. -/
inductive JsonVal where
  | num (n : Nat)
  | str (s : String)
  | other
deriving DecidableEq

/-- One entry of `manifest[osArchKey][component]` in the Mojang runtime
manifest.  `versionName = none` models a missing `version`/`version.name`;
`manifestFields = some (url, sha1)` models `manifest.url` and
`manifest.sha1` both present. -/
structure MojangManifestEntry where
  versionName : Option JsonVal
  manifestFields : Option (String × String)
deriving DecidableEq

/-- Translation of the per-entry major-version computation in
`JavaDownloader::downloadJavaForMinecraftVersionMojang`
(src/JavaDownloader.cpp lines 74-97).  An unsigned number is cast to
`unsigned int`; a string goes through `std::stoul` first, and only if that
throws is it re-parsed from the text before its first `'.'` (or whole when
dotless); any remaining failure leaves the initial value `0`. -/
def entryMajorVersion (e : MojangManifestEntry) : Nat :=
  match e.versionName with
  | none => 0
  | some .other => 0
  | some (.num n) => n % UINT_MOD
  | some (.str s) =>
    match stoul s with
    | some v => v % UINT_MOD
    | none =>
      let cs := s.data
      let retryText :=
        match findCharIdx '.' cs with
        | some dotPos => String.mk (cs.take dotPos)
        | none => s
      match stoul retryText with
      | some v => v % UINT_MOD
      | none => 0

/-- Translation of the candidate-selection loop in
`downloadJavaForMinecraftVersionMojang` (src/JavaDownloader.cpp lines
74-106): first entry in document order whose computed major version equals
the requirement and which carries `manifest.url`/`manifest.sha1` wins;
entries without those fields keep the scan going. -/
def findMojangCandidate (requiredMajor : Nat) : List MojangManifestEntry → Option (String × String)
  | [] => none
  | e :: rest =>
    if entryMajorVersion e = requiredMajor then
      match e.manifestFields with
      | some fields => some fields
      | none => findMojangCandidate requiredMajor rest
    else findMojangCandidate requiredMajor rest

/-- Translation of `downloadUrl.substr(downloadUrl.find_last_of('/') + 1)`
(src/JavaDownloader.cpp line 123): text after the last `'/'`; when there is
no `'/'`, `npos + 1` wraps to `0` and the whole string is taken. -/
def filenameFromUrl (url : String) : String :=
  match rfindCharIdx '/' url.data with
  | none => url
  | some i => String.mk (url.data.drop (i + 1))

/-- The fixed Mojang java-runtime manifest URL (src/JavaDownloader.cpp
line 19). -/
def mojangManifestUrl : String :=
  "https://launchermeta.mojang.com/v1/products/java-runtime/2ec0cc96c44e5a76b9c8b7c39df7210883d12871/all.json"

/-- Oracle inputs of one run of `downloadJavaForMinecraftVersionMojang`:
network responses, the fetched manifest document, and the digest computed
by `Utils::calculateFileSHA1` (`""` models its failure return). -/
structure MojangEnv where
  manifestStatus : Nat
  manifestParseOk : Bool
  componentEntries : Option (List MojangManifestEntry)
  downloadStatus : Nat
  downloadError : String
  downloadWrote : Bool
  computedSha1 : String
deriving DecidableEq

/-- Translation of `JavaDownloader::downloadJavaForMinecraftVersionMojang`
(src/JavaDownloader.cpp lines 38-162).  Returns the path of the verified
archive (`none` models the empty-path failure return), the filesystem after
the call, and the network requests issued. -/
def downloadJavaForMinecraftVersionMojang (env : MojangEnv) (os : OperatingSystem)
    (arch : Architecture) (mcVersion : Version) (baseDownloadDir : Path) (fs : FS) :
    Option Path × FS × List Event :=
  match mcVersion.javaVersion with
  | none => (none, fs, [])
  | some requiredJava =>
    let ev0 : List Event := [.netRequest mojangManifestUrl]
    if !(env.manifestStatus = 200 : Bool) then (none, fs, ev0)
    else if !env.manifestParseOk then (none, fs, ev0)
    else
      let osArchKey := getOSStringForJavaManifest os arch
      if osArchKey = "unknown-os-arch-mojang" then (none, fs, ev0)
      else
        match env.componentEntries with
        | none => (none, fs, ev0)
        | some componentVersions =>
          let candidate :=
            (findMojangCandidate requiredJava.majorVersion componentVersions).getD ("", "")
          if candidate.1 = "" then (none, fs, ev0)
          else
            let downloadUrl := candidate.1
            let expectedSha1 := candidate.2
            let fs1 := if !(fs.existsPath baseDownloadDir) then fs.createDirs baseDownloadDir else fs
            let downloadPath : Path := baseDownloadDir ++ [filenameFromUrl downloadUrl]
            let ev1 : List Event := ev0 ++ [.netRequest downloadUrl]
            if !(env.downloadStatus = 200 : Bool) || !(env.downloadError = "" : Bool) then
              let fs2 := if env.downloadWrote then fs1.addFile downloadPath else fs1
              let fs3 := if fs2.existsPath downloadPath then fs2.removeFile downloadPath else fs2
              (none, fs3, ev1)
            else
              let fs2 := fs1.addFile downloadPath
              if env.computedSha1 = "" then (none, fs2.removeFile downloadPath, ev1)
              else if !(env.computedSha1 = expectedSha1 : Bool) then
                (none, fs2.removeFile downloadPath, ev1)
              else (some downloadPath, fs2, ev1)

/-- Shape of the Adoptium API response as the code inspects it:
a parse failure, a non-array or empty document, or a first build entry
whose `binary.package.{link,name,checksum}` fields are all present
(`some (link, name, checksum)`) or not (`none`). -/
inductive AdoptiumApiJson where
  | parseError
  | notArrayOrEmpty
  | firstBuild (pkg : Option (String × String × String))
deriving DecidableEq

/-- Oracle inputs of one run of `downloadJavaForSpecificVersionAdoptium`:
network responses, the API document, and the digest computed by
`Utils::calculateFileSHA256` (`""` models its failure return). -/
structure AdoptiumEnv where
  apiStatus : Nat
  apiJson : AdoptiumApiJson
  downloadStatus : Nat
  downloadError : String
  downloadWrote : Bool
  computedSha256 : String
deriving DecidableEq

/-- Translation of `JavaDownloader::downloadJavaForSpecificVersionAdoptium`
(src/JavaDownloader.cpp lines 165-278). -/
def downloadJavaForSpecificVersionAdoptium (env : AdoptiumEnv) (os : OperatingSystem)
    (arch : Architecture) (requiredJava : JavaVersion) (baseDownloadDir : Path) (fs : FS) :
    Option Path × FS × List Event :=
  let adoptiumOS := getOSStringForAdoptium os
  let adoptiumArch := getArchStringForAdoptium arch
  if adoptiumOS = "" || adoptiumArch = "" then (none, fs, [])
  else
    let apiUrl := "https://api.adoptium.net/v3/assets/latest/" ++
      natToString requiredJava.majorVersion ++ "/hotspot"
    let ev0 : List Event := [.netRequest apiUrl]
    if !(env.apiStatus = 200 : Bool) then (none, fs, ev0)
    else
      match env.apiJson with
      | .parseError => (none, fs, ev0)
      | .notArrayOrEmpty => (none, fs, ev0)
      | .firstBuild none => (none, fs, ev0)
      | .firstBuild (some pkg) =>
        let downloadUrl := pkg.1
        let filename := pkg.2.1
        let expectedSha256 := pkg.2.2
        let fs1 := if !(fs.existsPath baseDownloadDir) then fs.createDirs baseDownloadDir else fs
        let downloadPath : Path := baseDownloadDir ++ [filename]
        let ev1 : List Event := ev0 ++ [.netRequest downloadUrl]
        if !(env.downloadStatus = 200 : Bool) || !(env.downloadError = "" : Bool) then
          let fs2 := if env.downloadWrote then fs1.addFile downloadPath else fs1
          let fs3 := if fs2.existsPath downloadPath then fs2.removeFile downloadPath else fs2
          (none, fs3, ev1)
        else
          let fs2 := fs1.addFile downloadPath
          if env.computedSha256 = "" then (none, fs2.removeFile downloadPath, ev1)
          else if !(env.computedSha256 = expectedSha256 : Bool) then
            (none, fs2.removeFile downloadPath, ev1)
          else (some downloadPath, fs2, ev1)

/-- Oracle inputs of one run of `JavaManager::extractJavaArchive`: the
outcomes of the minizip-ng calls, whether an exception escapes the `try`
block, and the archive's contents (directory and file entries, relative to
the extraction directory) as written by the time extraction stops. -/
structure ExtractEnv where
  readerOk : Bool
  openOk : Bool
  extractThrows : Bool
  extractErr : Bool
  contentDirs : List Path
  contentFiles : List Path
deriving DecidableEq

/-- Translation of `JavaManager::extractJavaArchive`
(src/JavaManager.cpp lines 80-150).  A pre-existing extraction directory is
wiped, the directory is recreated, then extraction runs; an error code from
`mz_zip_reader_extract_all_cb` leaves the directory in place (the code
explicitly skips cleanup there), while an escaping exception triggers
`remove_all` on the extraction directory. -/
def extractJavaArchive (env : ExtractEnv) (fs : FS)
    (_archivePath extractionDir : Path) : Bool × FS :=
  let fs1 := if fs.existsPath extractionDir then fs.removeAllUnder extractionDir else fs
  let fs2 := fs1.createDirs extractionDir
  if !env.readerOk then (false, fs2)
  else if !env.openOk then (false, fs2)
  else
    let fs3 := env.contentDirs.foldl (fun a d => a.createDirs (extractionDir ++ d)) fs2
    let fs4 := env.contentFiles.foldl (fun a f => a.addFile (extractionDir ++ f)) fs3
    if env.extractThrows then (false, fs4.removeAllUnder extractionDir)
    else (!env.extractErr, fs4)

/-- Oracle inputs of one run of `ensureJavaForMinecraftVersion`:
the current platform and the environments of the collaborator calls. -/
structure EnsureEnv where
  os : OperatingSystem
  arch : Architecture
  isWinBuild : Bool
  adoptium : AdoptiumEnv
  mojang : MojangEnv
  extract : ExtractEnv
deriving DecidableEq

/-- Result of one `ensureJavaForMinecraftVersion` run: the returned record
(`std::nullopt` ↔ `none`), the registry and filesystem after the call, and
the observable effects. -/
structure EnsureResult where
  result : Option JavaRuntime
  registry : List JavaRuntime
  fs : FS
  events : List Event
deriving DecidableEq

/-- The registry-lookup predicate of the cache check
(src/JavaManager.cpp lines 256-261). -/
def runtimeMatches (requiredJava : JavaVersion) (r : JavaRuntime) : Bool :=
  r.componentName = requiredJava.component && r.majorVersion = requiredJava.majorVersion

/-- The tail of `ensureJavaForMinecraftVersion` after a source produced a
verified archive (src/JavaManager.cpp lines 286-329): extraction into the
canonical directory, executable discovery, registration (home is the
executable's grandparent), and archive cleanup. -/
def registerAfterDownload (env : EnsureEnv) (config : Config)
    (registry : List JavaRuntime) (requiredJava : JavaVersion)
    (downloadedArchivePath : Path) (sourceApi : String) (fs2 : FS)
    (ev2 : List Event) : EnsureResult :=
  let extractionTargetDir := getExtractionPathForRuntime config.javaRuntimesDir requiredJava
  let extRes := extractJavaArchive env.extract fs2 downloadedArchivePath extractionTargetDir
  let ev3 := ev2 ++ [.extraction downloadedArchivePath extractionTargetDir]
  if extRes.1 then
    match findJavaExecutable extRes.2 env.isWinBuild env.os extractionTargetDir with
    | some javaExePath =>
      let newRuntime : JavaRuntime :=
        { homePath := pathParent (pathParent javaExePath),
          javaExecutablePath := javaExePath,
          majorVersion := requiredJava.majorVersion,
          componentName := requiredJava.component,
          source := sourceApi }
      { result := some newRuntime, registry := registry ++ [newRuntime],
        fs := extRes.2.removeFile downloadedArchivePath, events := ev3 }
    | none =>
      let fs4 := if extRes.2.existsPath downloadedArchivePath then
        extRes.2.removeFile downloadedArchivePath else extRes.2
      { result := none, registry := registry, fs := fs4, events := ev3 }
  else
    let fs4 := if extRes.2.existsPath downloadedArchivePath then
      extRes.2.removeFile downloadedArchivePath else extRes.2
    { result := none, registry := registry, fs := fs4, events := ev3 }

/-- Translation of `JavaManager::ensureJavaForMinecraftVersion`
(src/JavaManager.cpp lines 246-330): cache check, Adoptium attempt, Mojang
fallback, then `registerAfterDownload` on the downloaded archive. -/
def ensureJavaForMinecraftVersion (env : EnsureEnv) (config : Config)
    (registry : List JavaRuntime) (fs : FS) (mcVersion : Version) : EnsureResult :=
  match mcVersion.javaVersion with
  | none => { result := none, registry := registry, fs := fs, events := [] }
  | some requiredJava =>
    match registry.find? (runtimeMatches requiredJava) with
    | some runtime => { result := some runtime, registry := registry, fs := fs, events := [] }
    | none =>
      let adoptiumDownloadDir : Path := config.javaRuntimesDir ++ ["_downloads", "adoptium"]
      let aRes := downloadJavaForSpecificVersionAdoptium env.adoptium env.os env.arch
        requiredJava adoptiumDownloadDir fs
      match aRes.1 with
      | some p =>
        registerAfterDownload env config registry requiredJava p "adoptium" aRes.2.1 aRes.2.2
      | none =>
        let mojangDownloadDir : Path := config.javaRuntimesDir ++ ["_downloads", "mojang"]
        let mRes := downloadJavaForMinecraftVersionMojang env.mojang env.os env.arch
          mcVersion mojangDownloadDir aRes.2.1
        match mRes.1 with
        | some p =>
          registerAfterDownload env config registry requiredJava p "mojang" mRes.2.1
            (aRes.2.2 ++ mRes.2.2)
        | none =>
          { result := none, registry := registry, fs := mRes.2.1,
            events := aRes.2.2 ++ mRes.2.2 }

/-- Case-insensitive digest comparison, written from the spec's words
("compare case-insensitively to the expected value"); this is the
spec-side definition the source comparison is checked against. -/
def specCaseInsensitiveDigestEq (a b : String) : Bool :=
  a.data.map Char.toLower = b.data.map Char.toLower

/-- The conditions under which the Adoptium downloader yields not-found
before selecting a candidate (src/JavaDownloader.cpp lines 174-226):
unsupported platform, non-200 API status, parse failure, non-array or
empty response, or missing package fields. -/
def adoptiumNotFound (env : AdoptiumEnv) (os : OperatingSystem) (arch : Architecture) : Prop :=
  getOSStringForAdoptium os = "" ∨ getArchStringForAdoptium arch = "" ∨
  ¬ env.apiStatus = 200 ∨ env.apiJson = .parseError ∨ env.apiJson = .notArrayOrEmpty ∨
  env.apiJson = .firstBuild none

/-- The conditions under which the Mojang downloader yields not-found
before selecting a candidate (src/JavaDownloader.cpp lines 48-112):
manifest fetch failure or parse failure, unmapped platform, missing
OS/component key, or no matching entry with a download URL. -/
def mojangNotFound (env : MojangEnv) (os : OperatingSystem) (arch : Architecture)
    (requiredMajor : Nat) : Prop :=
  ¬ env.manifestStatus = 200 ∨ env.manifestParseOk = false ∨
  getOSStringForJavaManifest os arch = "unknown-os-arch-mojang" ∨
  env.componentEntries = none ∨
  (∀ es, env.componentEntries = some es →
    ((findMojangCandidate requiredMajor es).getD ("", "")).1 = "")

/-- The conditions under which the Adoptium downloader selects a
candidate, downloads it successfully, and then fails the SHA-256
verification (src/JavaDownloader.cpp lines 260-274). -/
def adoptiumVerifyMismatch (env : AdoptiumEnv) (os : OperatingSystem)
    (arch : Architecture) : Prop :=
  ¬ getOSStringForAdoptium os = "" ∧ ¬ getArchStringForAdoptium arch = "" ∧
  env.apiStatus = 200 ∧
  (∃ link name checksum, env.apiJson = .firstBuild (some (link, name, checksum)) ∧
    ¬ env.computedSha256 = checksum) ∧
  env.downloadStatus = 200 ∧ env.downloadError = ""

/-- The conditions under which the Mojang downloader selects a candidate,
downloads it successfully, and then fails the SHA-1 verification
(src/JavaDownloader.cpp lines 144-158). -/
def mojangVerifyMismatch (env : MojangEnv) (os : OperatingSystem)
    (arch : Architecture) (requiredMajor : Nat) : Prop :=
  env.manifestStatus = 200 ∧ env.manifestParseOk = true ∧
  ¬ getOSStringForJavaManifest os arch = "unknown-os-arch-mojang" ∧
  (∃ es url sha1, env.componentEntries = some es ∧
    findMojangCandidate requiredMajor es = some (url, sha1) ∧ ¬ url = "" ∧
    ¬ env.computedSha1 = sha1) ∧
  env.downloadStatus = 200 ∧ env.downloadError = ""

/-! Concrete fixtures, used to evaluate the model at specific inputs in
the theorems below. -/

/-- A concrete runtimes root. -/
def fixRoot : Path := ["runtimes"]

/-- A concrete configuration over `fixRoot`. -/
def fixConfig : Config := { javaRuntimesDir := fixRoot }

/-- A concrete Minecraft version requiring java-runtime-gamma 17. -/
def fixMc : Version :=
  { id := "1.20.5",
    javaVersion := some { component := "java-runtime-gamma", majorVersion := 17 } }

/-- A filesystem holding only the runtimes root. -/
def fixFs0 : FS := { dirs := [fixRoot], files := [] }

/-- A Mojang environment for runs that never reach the Mojang fetcher. -/
def fixMojangIdle : MojangEnv :=
  { manifestStatus := 0, manifestParseOk := false, componentEntries := none,
    downloadStatus := 0, downloadError := "", downloadWrote := false, computedSha1 := "" }

/-- An Adoptium environment in which every step succeeds. -/
def fixAdoptiumOk : AdoptiumEnv :=
  { apiStatus := 200, apiJson := .firstBuild (some ("https://a/jre.zip", "jre.zip", "aa")),
    downloadStatus := 200, downloadError := "", downloadWrote := true, computedSha256 := "aa" }

/-- An Adoptium environment in which the API query yields not-found. -/
def fixAdoptiumNotFound : AdoptiumEnv :=
  { apiStatus := 404, apiJson := .parseError, downloadStatus := 0, downloadError := "",
    downloadWrote := false, computedSha256 := "" }

/-- An Adoptium environment whose computed digest differs from the expected
digest only in hex-letter casing. -/
def fixAdoptiumCaseMismatch : AdoptiumEnv :=
  { apiStatus := 200, apiJson := .firstBuild (some ("https://a/jre.zip", "jre.zip", "AB12CD")),
    downloadStatus := 200, downloadError := "", downloadWrote := true, computedSha256 := "ab12cd" }

/-- An Adoptium environment whose computed digest mismatches outright. -/
def fixAdoptiumMismatch : AdoptiumEnv :=
  { apiStatus := 200, apiJson := .firstBuild (some ("https://a/jre.zip", "jre.zip", "aa")),
    downloadStatus := 200, downloadError := "", downloadWrote := true, computedSha256 := "bb" }

/-- A Mojang environment in which every step succeeds. -/
def fixMojangOk : MojangEnv :=
  { manifestStatus := 200, manifestParseOk := true,
    componentEntries := some [{ versionName := some (.num 17),
                                manifestFields := some ("http://m/x/jre17.zip", "s1") }],
    downloadStatus := 200, downloadError := "", downloadWrote := true, computedSha1 := "s1" }

/-- A Mojang environment whose computed digest mismatches. -/
def fixMojangMismatch : MojangEnv :=
  { manifestStatus := 200, manifestParseOk := true,
    componentEntries := some [{ versionName := some (.num 17),
                                manifestFields := some ("http://m/x/jre17.zip", "s1") }],
    downloadStatus := 200, downloadError := "", downloadWrote := true, computedSha1 := "ff" }

/-- An extraction environment producing a single nested top folder `jdk`
holding `bin/java`, with all steps succeeding. -/
def fixExtractNested : ExtractEnv :=
  { readerOk := true, openOk := true, extractThrows := false, extractErr := false,
    contentDirs := [["jdk"], ["jdk", "bin"]], contentFiles := [["jdk", "bin", "java"]] }

/-- An extraction environment in which `mz_zip_reader_extract_all_cb`
reports an error code (no exception). -/
def fixExtractErrCode : ExtractEnv :=
  { readerOk := true, openOk := true, extractThrows := false, extractErr := true,
    contentDirs := [], contentFiles := [] }

/-- An extraction environment in which an exception escapes the `try`
block during extraction. -/
def fixExtractThrows : ExtractEnv :=
  { readerOk := true, openOk := true, extractThrows := true, extractErr := false,
    contentDirs := [], contentFiles := [] }

/-- A full environment for a successful Adoptium-backed resolution with a
nested archive layout. -/
def fixEnvAdoptiumNested : EnsureEnv :=
  { os := .LINUX, arch := .X64, isWinBuild := false, adoptium := fixAdoptiumOk,
    mojang := fixMojangIdle, extract := fixExtractNested }

/-- A full environment in which Adoptium yields not-found and Mojang
succeeds. -/
def fixEnvMojangFallback : EnsureEnv :=
  { os := .LINUX, arch := .X64, isWinBuild := false, adoptium := fixAdoptiumNotFound,
    mojang := fixMojangOk, extract := fixExtractNested }

/-- A full environment in which both sources mismatch on the digest. -/
def fixEnvBothMismatch : EnsureEnv :=
  { os := .LINUX, arch := .X64, isWinBuild := false, adoptium := fixAdoptiumMismatch,
    mojang := fixMojangMismatch, extract := fixExtractNested }

/-- The registry record produced by a successful nested-archive
resolution over `fixRoot` via Adoptium. -/
def fixRtNested : JavaRuntime :=
  { homePath := fixRoot ++ ["java-runtime-gamma_17", "jdk"],
    javaExecutablePath := fixRoot ++ ["java-runtime-gamma_17", "jdk", "bin", "java"],
    majorVersion := 17, componentName := "java-runtime-gamma", source := "adoptium" }

/-- The registry record produced by the same nested-archive resolution
when the archive came from the Mojang fallback. -/
def fixRtNestedMojang : JavaRuntime :=
  { homePath := fixRoot ++ ["java-runtime-gamma_17", "jdk"],
    javaExecutablePath := fixRoot ++ ["java-runtime-gamma_17", "jdk", "bin", "java"],
    majorVersion := 17, componentName := "java-runtime-gamma", source := "mojang" }

/-- A full environment in which both sources yield not-found. -/
def fixEnvBothNotFound : EnsureEnv :=
  { os := .LINUX, arch := .X64, isWinBuild := false, adoptium := fixAdoptiumNotFound,
    mojang := fixMojangIdle, extract := fixExtractNested }

/-- A full environment in which Adoptium yields not-found (HTTP 404) and
only the Mojang fallback's downloaded archive fails verification. -/
def fixEnvAdoNotFoundMojMismatch : EnsureEnv :=
  { os := .LINUX, arch := .X64, isWinBuild := false, adoptium := fixAdoptiumNotFound,
    mojang := fixMojangMismatch, extract := fixExtractNested }

/-- A filesystem in which the runtimes root holds both a
`jre-legacy_8` and a `mojang_jre-legacy_8` runtime directory, each with a
`bin/java` executable. -/
def fixScanFs : FS :=
  { dirs := [fixRoot,
             fixRoot ++ ["jre-legacy_8"], fixRoot ++ ["jre-legacy_8", "bin"],
             fixRoot ++ ["mojang_jre-legacy_8"], fixRoot ++ ["mojang_jre-legacy_8", "bin"]],
    files := [fixRoot ++ ["jre-legacy_8", "bin", "java"],
              fixRoot ++ ["mojang_jre-legacy_8", "bin", "java"]] }

/-- A filesystem holding one extracted `java-runtime-gamma_17` runtime with
`bin/java` directly under it. -/
def fixRoundTripFs : FS :=
  { dirs := [fixRoot,
             fixRoot ++ ["java-runtime-gamma_17"],
             fixRoot ++ ["java-runtime-gamma_17", "bin"]],
    files := [fixRoot ++ ["java-runtime-gamma_17", "bin", "java"]] }

/-! Helper lemmas about the filesystem model. -/

theorem isPathPrefixOf_append_same (r as bs : List String) :
    isPathPrefixOf (r ++ as) (r ++ bs) = isPathPrefixOf as bs := by
  induction r with
  | nil => rfl
  | cons a r ih => simp [isPathPrefixOf, ih]

theorem mem_pathPrefixes {p q : List String} :
    q ∈ pathPrefixes p ↔ q ≠ [] ∧ isPathPrefixOf q p = true := by
  induction p generalizing q with
  | nil =>
    simp only [pathPrefixes, List.not_mem_nil, false_iff]
    rintro ⟨hne, hpre⟩
    cases q with
    | nil => exact hne rfl
    | cons b bs => simp [isPathPrefixOf] at hpre
  | cons a as ih =>
    simp only [pathPrefixes, List.mem_cons, List.mem_map]
    constructor
    · rintro (rfl | ⟨q', hq', rfl⟩)
      · simp [isPathPrefixOf]
      · rcases ih.mp hq' with ⟨hne, hpre⟩
        exact ⟨by simp, by simp [isPathPrefixOf, hpre]⟩
    · rintro ⟨hne, hpre⟩
      cases q with
      | nil => exact absurd rfl hne
      | cons b bs =>
        simp only [isPathPrefixOf, Bool.and_eq_true, decide_eq_true_eq] at hpre
        rcases hpre with ⟨rfl, hpre⟩
        cases bs with
        | nil => exact Or.inl rfl
        | cons c cs =>
          exact Or.inr ⟨c :: cs, ih.mpr ⟨by simp, hpre⟩, rfl⟩

theorem FS.files_addDir (fs : FS) (p : List String) : (fs.addDir p).files = fs.files := by
  unfold FS.addDir
  split <;> rfl

theorem FS.mem_dirs_addDir {fs : FS} {p q : List String} :
    q ∈ (fs.addDir p).dirs ↔ q ∈ fs.dirs ∨ q = p := by
  unfold FS.addDir
  split <;> rename_i h <;> simp_all

theorem FS.files_foldl_addDir (l : List (List String)) (fs : FS) :
    (l.foldl FS.addDir fs).files = fs.files := by
  induction l generalizing fs with
  | nil => rfl
  | cons a l ih => simp [List.foldl_cons, ih, FS.files_addDir]

theorem FS.mem_dirs_foldl_addDir (l : List (List String)) (fs : FS) (q : List String) :
    q ∈ (l.foldl FS.addDir fs).dirs ↔ q ∈ fs.dirs ∨ q ∈ l := by
  induction l generalizing fs with
  | nil => simp
  | cons a l ih =>
    simp only [List.foldl_cons, ih, FS.mem_dirs_addDir, List.mem_cons]
    tauto

theorem FS.files_createDirs (fs : FS) (p : List String) :
    (fs.createDirs p).files = fs.files :=
  FS.files_foldl_addDir _ _

theorem FS.mem_dirs_createDirs {fs : FS} {p q : List String} :
    q ∈ (fs.createDirs p).dirs ↔
      q ∈ fs.dirs ∨ (q ≠ [] ∧ isPathPrefixOf q p = true) := by
  unfold FS.createDirs
  rw [FS.mem_dirs_foldl_addDir, mem_pathPrefixes]

theorem FS.dirs_addFile (fs : FS) (p : List String) : (fs.addFile p).dirs = fs.dirs := by
  unfold FS.addFile
  split <;> rfl

theorem FS.mem_files_addFile {fs : FS} {p q : List String} :
    q ∈ (fs.addFile p).files ↔ q ∈ fs.files ∨ q = p := by
  unfold FS.addFile
  split <;> rename_i h <;> simp_all

theorem FS.dirs_removeFile (fs : FS) (p : List String) :
    (fs.removeFile p).dirs = fs.dirs := rfl

theorem FS.mem_files_removeFile {fs : FS} {p q : List String} :
    q ∈ (fs.removeFile p).files ↔ q ∈ fs.files ∧ q ≠ p := by
  unfold FS.removeFile
  simp [List.mem_filter]

theorem FS.isDir_iff_mem {fs : FS} {p : Path} : fs.isDir p = true ↔ p ∈ fs.dirs := by
  simp [FS.isDir]

theorem FS.isFile_iff_mem {fs : FS} {p : Path} : fs.isFile p = true ↔ p ∈ fs.files := by
  simp [FS.isFile]

/-! Helper lemmas about decimal rendering. -/

theorem isDigit_natDigitsGo (fuel : Nat) :
    ∀ (n : Nat) (acc : List Char), (∀ c ∈ acc, c.isDigit = true) →
      ∀ c ∈ natDigitsGo fuel n acc, c.isDigit = true := by
  have hdig : ∀ m, m < 10 → (Char.ofNat (48 + m)).isDigit = true := by decide
  induction fuel with
  | zero => intro n acc hacc c hc; exact hacc c hc
  | succ fuel ih =>
    intro n acc hacc c hc
    have hmod : n % 10 < 10 := Nat.mod_lt _ (by decide)
    simp only [natDigitsGo] at hc
    split at hc
    · rcases List.mem_cons.mp hc with rfl | h
      · exact hdig _ hmod
      · exact hacc c h
    · refine ih _ _ ?_ c hc
      intro d hd
      rcases List.mem_cons.mp hd with rfl | h
      · exact hdig _ hmod
      · exact hacc d h

theorem isDigit_natToString (n : Nat) : ∀ c ∈ (natToString n).data, c.isDigit = true := by
  intro c hc
  exact isDigit_natDigitsGo (n + 1) n [] (by simp) c hc

theorem extractionDirName_ne_downloads (comp : String) (n : Nat) :
    comp ++ "_" ++ natToString n ≠ "_downloads" := by
  intro h
  have hdata := congrArg String.data h
  simp only [String.data_append] at hdata
  cases hcomp : comp.data with
  | nil =>
    rw [hcomp] at hdata
    simp only [List.nil_append, List.singleton_append] at hdata
    have hnat : (natToString n).data = ['d', 'o', 'w', 'n', 'l', 'o', 'a', 'd', 's'] :=
      (List.cons.inj hdata).2
    have hd : 'd' ∈ (natToString n).data := by
      rw [hnat]; decide
    exact absurd (isDigit_natToString n 'd' hd) (by decide)
  | cons c cs =>
    rw [hcomp] at hdata
    simp only [List.cons_append] at hdata
    have htail := (List.cons.inj hdata).2
    have hmem : '_' ∈ (['d', 'o', 'w', 'n', 'l', 'o', 'a', 'd', 's'] : List Char) := by
      rw [← htail]
      refine List.mem_append.mpr (Or.inl ?_)
      exact List.mem_append.mpr (Or.inr (by decide))
    revert hmem
    decide

theorem extractionPath_not_prefix_of_download (root : List String) (comp : String)
    (n : Nat) (s : String) :
    isPathPrefixOf (root ++ [comp ++ "_" ++ natToString n]) (root ++ ["_downloads", s]) = false := by
  rw [isPathPrefixOf_append_same]
  simp only [isPathPrefixOf, Bool.and_eq_false_iff, decide_eq_false_iff_not]
  exact Or.inl (extractionDirName_ne_downloads comp n)

/-! Helper lemmas about the downloaders. -/

theorem downloadAdoptium_of_notFound (env : AdoptiumEnv) (os : OperatingSystem)
    (arch : Architecture) (req : JavaVersion) (dir : Path) (fs : FS)
    (h : adoptiumNotFound env os arch) :
    (downloadJavaForSpecificVersionAdoptium env os arch req dir fs).1 = none ∧
    (downloadJavaForSpecificVersionAdoptium env os arch req dir fs).2.1 = fs := by
  constructor <;>
  · simp only [downloadJavaForSpecificVersionAdoptium]
    by_cases hc1 : getOSStringForAdoptium os = "" ∨ getArchStringForAdoptium arch = ""
    · rw [if_pos (by simpa using hc1)]
    · rw [if_neg (by simpa using hc1)]
      by_cases hc2 : env.apiStatus = 200
      · rw [if_neg (by simp [hc2])]
        rcases hj : env.apiJson with _ | _ | pkg
        · simp only [hj]
        · simp only [hj]
        · rcases pkg with _ | pkg
          · simp only [hj]
          · exfalso
            rcases h with h | h | h | h | h | h
            · exact hc1 (Or.inl h)
            · exact hc1 (Or.inr h)
            · exact h hc2
            · simp [hj] at h
            · simp [hj] at h
            · simp [hj] at h
      · rw [if_pos (by simp [hc2])]

theorem downloadMojang_of_notFound (env : MojangEnv) (os : OperatingSystem)
    (arch : Architecture) (mc : Version) (dir : Path) (fs : FS) (req : JavaVersion)
    (hjv : mc.javaVersion = some req)
    (h : mojangNotFound env os arch req.majorVersion) :
    (downloadJavaForMinecraftVersionMojang env os arch mc dir fs).1 = none ∧
    (downloadJavaForMinecraftVersionMojang env os arch mc dir fs).2.1 = fs := by
  constructor <;>
  · simp only [downloadJavaForMinecraftVersionMojang, hjv]
    by_cases hc1 : env.manifestStatus = 200
    · rw [if_neg (by simp [hc1])]
      cases hc2 : env.manifestParseOk with
      | false => rw [if_pos (by simp [hc2])]
      | true =>
        rw [if_neg (by simp [hc2])]
        by_cases hc3 : getOSStringForJavaManifest os arch = "unknown-os-arch-mojang"
        · rw [if_pos hc3]
        · rw [if_neg hc3]
          rcases hce : env.componentEntries with _ | es
          · simp only [hce]
          · simp only [hce]
            by_cases hc4 : ((findMojangCandidate req.majorVersion es).getD ("", "")).1 = ""
            · rw [if_pos (by simpa using hc4)]
            · exfalso
              rcases h with h | h | h | h | h
              · exact h hc1
              · simp [h] at hc2
              · exact hc3 h
              · simp [h] at hce
              · exact hc4 (h es hce)
    · rw [if_pos (by simp [hc1])]

/-- The Adoptium downloader once a candidate was selected and the download
call succeeded: everything now hinges on the digest comparison. -/
theorem downloadAdoptium_verified_eq (env : AdoptiumEnv) (os : OperatingSystem)
    (arch : Architecture) (req : JavaVersion) (dir : Path) (fs : FS)
    (link name checksum : String)
    (hos : ¬ getOSStringForAdoptium os = "")
    (harch : ¬ getArchStringForAdoptium arch = "")
    (hapi : env.apiStatus = 200)
    (hjson : env.apiJson = .firstBuild (some (link, name, checksum)))
    (hdl : env.downloadStatus = 200) (hderr : env.downloadError = "") :
    downloadJavaForSpecificVersionAdoptium env os arch req dir fs =
      ((if env.computedSha256 = "" then none
        else if env.computedSha256 = checksum then some (dir ++ [name]) else none),
       (let fs2 := (if !(fs.existsPath dir) then fs.createDirs dir else fs).addFile (dir ++ [name])
        if env.computedSha256 = "" then fs2.removeFile (dir ++ [name])
        else if env.computedSha256 = checksum then fs2 else fs2.removeFile (dir ++ [name])),
       [Event.netRequest ("https://api.adoptium.net/v3/assets/latest/" ++
          natToString req.majorVersion ++ "/hotspot"),
        Event.netRequest link]) := by
  simp only [downloadJavaForSpecificVersionAdoptium, hjson]
  rw [if_neg (by simp [hos, harch]), if_neg (by simp [hapi]), if_neg (by simp [hdl, hderr])]
  by_cases h1 : env.computedSha256 = ""
  · rw [if_pos h1, if_pos h1, if_pos h1]
    rfl
  · rw [if_neg h1, if_neg h1, if_neg h1]
    by_cases h2 : env.computedSha256 = checksum
    · rw [if_neg (show ¬(!decide (env.computedSha256 = checksum)) = true by simp [h2]),
        if_pos h2, if_pos h2]
      rfl
    · rw [if_pos (show (!decide (env.computedSha256 = checksum)) = true by simp [h2]),
        if_neg h2, if_neg h2]
      rfl

/-- The Mojang downloader once a candidate was selected and the download
call succeeded: everything now hinges on the digest comparison. -/
theorem downloadMojang_verified_eq (env : MojangEnv) (os : OperatingSystem)
    (arch : Architecture) (mc : Version) (dir : Path) (fs : FS) (req : JavaVersion)
    (es : List MojangManifestEntry) (url sha1 : String)
    (hjv : mc.javaVersion = some req)
    (hmani : env.manifestStatus = 200) (hparse : env.manifestParseOk = true)
    (hkey : ¬ getOSStringForJavaManifest os arch = "unknown-os-arch-mojang")
    (hce : env.componentEntries = some es)
    (hcand : findMojangCandidate req.majorVersion es = some (url, sha1))
    (hurl : ¬ url = "")
    (hdl : env.downloadStatus = 200) (hderr : env.downloadError = "") :
    downloadJavaForMinecraftVersionMojang env os arch mc dir fs =
      ((if env.computedSha1 = "" then none
        else if env.computedSha1 = sha1 then some (dir ++ [filenameFromUrl url]) else none),
       (let fs2 := (if !(fs.existsPath dir) then fs.createDirs dir else fs).addFile
          (dir ++ [filenameFromUrl url])
        if env.computedSha1 = "" then fs2.removeFile (dir ++ [filenameFromUrl url])
        else if env.computedSha1 = sha1 then fs2
        else fs2.removeFile (dir ++ [filenameFromUrl url])),
       [Event.netRequest mojangManifestUrl, Event.netRequest url]) := by
  simp only [downloadJavaForMinecraftVersionMojang, hjv, hce, hcand, Option.getD_some]
  rw [if_neg (by simp [hmani]), if_neg (by simp [hparse]), if_neg hkey,
    if_neg (by simpa using hurl), if_neg (by simp [hdl, hderr])]
  by_cases h1 : env.computedSha1 = ""
  · rw [if_pos h1, if_pos h1, if_pos h1]
    rfl
  · rw [if_neg h1, if_neg h1, if_neg h1]
    by_cases h2 : env.computedSha1 = sha1
    · rw [if_neg (show ¬(!decide (env.computedSha1 = sha1)) = true by simp [h2]),
        if_pos h2, if_pos h2]
      rfl
    · rw [if_pos (show (!decide (env.computedSha1 = sha1)) = true by simp [h2]),
        if_neg h2, if_neg h2]
      rfl

theorem isPathPrefixOf_refl {α : Type} [DecidableEq α] (p : List α) :
    isPathPrefixOf p p = true := by
  induction p with
  | nil => rfl
  | cons a as ih => simp [isPathPrefixOf, ih]

theorem FS.dirs_foldl_addFile (l : List Path) (base : Path) (fs : FS) :
    (l.foldl (fun a f => a.addFile (base ++ f)) fs).dirs = fs.dirs := by
  induction l generalizing fs with
  | nil => rfl
  | cons x l ih => simp [List.foldl_cons, ih, FS.dirs_addFile]

theorem FS.mem_dirs_foldl_createDirs_mono (l : List Path) (base : Path) (fs : FS)
    (q : List String) (h : q ∈ fs.dirs) :
    q ∈ (l.foldl (fun a d => a.createDirs (base ++ d)) fs).dirs := by
  induction l generalizing fs with
  | nil => exact h
  | cons x l ih =>
    exact ih _ (FS.mem_dirs_createDirs.mpr (Or.inl h))

theorem FS.isFile_removeFile_self (fs : FS) (p : Path) :
    (fs.removeFile p).isFile p = false := by
  rw [Bool.eq_false_iff]
  intro hmem
  exact ((FS.mem_files_removeFile).mp (FS.isFile_iff_mem.mp hmem)).2 rfl

theorem FS.isDir_removeAllUnder_self (fs : FS) (p : Path) :
    (fs.removeAllUnder p).isDir p = false := by
  rw [Bool.eq_false_iff]
  intro hmem
  have hm := FS.isDir_iff_mem.mp hmem
  simp only [FS.removeAllUnder, List.mem_filter, isPathPrefixOf_refl] at hm
  simp at hm

theorem FS.files_createDirsIf (fs : FS) (dir : Path) :
    (if (!(fs.existsPath dir)) = true then fs.createDirs dir else fs).files = fs.files := by
  split
  · exact FS.files_createDirs fs dir
  · rfl

theorem FS.mem_dirs_createDirsIf_mono {fs : FS} {dir q : Path} (h : q ∈ fs.dirs) :
    q ∈ (if (!(fs.existsPath dir)) = true then fs.createDirs dir else fs).dirs := by
  split
  · exact FS.mem_dirs_createDirs.mpr (Or.inl h)
  · exact h

theorem FS.mem_dirs_createDirsIf_sub {fs : FS} {dir q : Path}
    (h : q ∈ (if (!(fs.existsPath dir)) = true then fs.createDirs dir else fs).dirs) :
    q ∈ fs.dirs ∨ (q ≠ [] ∧ isPathPrefixOf q dir = true) := by
  rcases (by split at h <;> [exact FS.mem_dirs_createDirs.mp h; exact Or.inl h] :
      q ∈ fs.dirs ∨ (q ≠ [] ∧ isPathPrefixOf q dir = true)) with h' | h'
  · exact Or.inl h'
  · exact Or.inr h'

/-- The Adoptium downloader under the integrity gate: whether the source
yields not-found or its verified download mismatches, the result is
absent, directories grow by at most the download directory and its
intermediates, no file appears, and on a mismatch the downloaded file is
gone. -/
theorem downloadAdoptium_gate (env : AdoptiumEnv) (os : OperatingSystem)
    (arch : Architecture) (req : JavaVersion) (dir : Path) (fs : FS)
    (h : adoptiumNotFound env os arch ∨ adoptiumVerifyMismatch env os arch) :
    (downloadJavaForSpecificVersionAdoptium env os arch req dir fs).1 = none ∧
    (∀ q : Path,
      q ∈ (downloadJavaForSpecificVersionAdoptium env os arch req dir fs).2.1.dirs →
      q ∈ fs.dirs ∨ (q ≠ [] ∧ isPathPrefixOf q dir = true)) ∧
    (∀ q : Path, q ∈ fs.dirs →
      q ∈ (downloadJavaForSpecificVersionAdoptium env os arch req dir fs).2.1.dirs) ∧
    (∀ q : Path,
      q ∈ (downloadJavaForSpecificVersionAdoptium env os arch req dir fs).2.1.files →
      q ∈ fs.files) ∧
    (adoptiumVerifyMismatch env os arch →
      ∀ link name checksum, env.apiJson = .firstBuild (some (link, name, checksum)) →
        (downloadJavaForSpecificVersionAdoptium env os arch req dir fs).2.1.isFile
          (dir ++ [name]) = false) := by
  rcases h with hnf | hvm
  · obtain ⟨h1, h2⟩ := downloadAdoptium_of_notFound env os arch req dir fs hnf
    rw [h2]
    refine ⟨h1, fun q hq => Or.inl hq, fun q hq => hq, fun q hq => hq, ?_⟩
    intro hvm link name checksum hjson
    exfalso
    obtain ⟨hos, harch, hapi, ⟨l2, n2, c2, hjson2, _⟩, _, _⟩ := hvm
    rcases hnf with hc | hc | hc | hc | hc | hc
    · exact hos hc
    · exact harch hc
    · exact hc hapi
    · simp [hjson2] at hc
    · simp [hjson2] at hc
    · simp [hjson2] at hc
  · obtain ⟨hos, harch, hapi, ⟨link, name, checksum, hjson, hsha⟩, hdl, hderr⟩ := hvm
    have ha := downloadAdoptium_verified_eq env os arch req dir fs link name checksum
      hos harch hapi hjson hdl hderr
    have h1 : (downloadJavaForSpecificVersionAdoptium env os arch req dir fs).1 = none := by
      rw [ha]
      by_cases hz : env.computedSha256 = "" <;> simp [hz, hsha]
    have h2 : (downloadJavaForSpecificVersionAdoptium env os arch req dir fs).2.1 =
        ((if (!(fs.existsPath dir)) = true then fs.createDirs dir else fs).addFile
          (dir ++ [name])).removeFile (dir ++ [name]) := by
      rw [ha]
      by_cases hz : env.computedSha256 = "" <;> simp [hz, hsha]
    rw [h2]
    refine ⟨h1, ?_, ?_, ?_, ?_⟩
    · intro q hq
      rw [FS.dirs_removeFile, FS.dirs_addFile] at hq
      exact FS.mem_dirs_createDirsIf_sub hq
    · intro q hq
      rw [FS.dirs_removeFile, FS.dirs_addFile]
      exact FS.mem_dirs_createDirsIf_mono hq
    · intro q hq
      rw [FS.mem_files_removeFile, FS.mem_files_addFile, FS.files_createDirsIf] at hq
      rcases hq with ⟨hq1 | hq2, hne⟩
      · exact hq1
      · exact absurd hq2 hne
    · intro _ l2 n2 c2 hjson2
      rw [hjson] at hjson2
      obtain ⟨h1', h2', h3'⟩ : link = l2 ∧ name = n2 ∧ checksum = c2 := by
        simpa using hjson2
      subst h2'
      exact FS.isFile_removeFile_self _ _

/-- The Mojang downloader under the integrity gate: whether the source
yields not-found or its verified download mismatches, the result is
absent, directories grow by at most the download directory and its
intermediates, no file appears, and on a mismatch the downloaded file is
gone. -/
theorem downloadMojang_gate (env : MojangEnv) (os : OperatingSystem)
    (arch : Architecture) (mc : Version) (dir : Path) (fs : FS) (req : JavaVersion)
    (hjv : mc.javaVersion = some req)
    (h : mojangNotFound env os arch req.majorVersion ∨
      mojangVerifyMismatch env os arch req.majorVersion) :
    (downloadJavaForMinecraftVersionMojang env os arch mc dir fs).1 = none ∧
    (∀ q : Path,
      q ∈ (downloadJavaForMinecraftVersionMojang env os arch mc dir fs).2.1.dirs →
      q ∈ fs.dirs ∨ (q ≠ [] ∧ isPathPrefixOf q dir = true)) ∧
    (∀ q : Path, q ∈ fs.dirs →
      q ∈ (downloadJavaForMinecraftVersionMojang env os arch mc dir fs).2.1.dirs) ∧
    (∀ q : Path,
      q ∈ (downloadJavaForMinecraftVersionMojang env os arch mc dir fs).2.1.files →
      q ∈ fs.files) ∧
    (mojangVerifyMismatch env os arch req.majorVersion →
      ∀ es url sha1, env.componentEntries = some es →
        findMojangCandidate req.majorVersion es = some (url, sha1) →
        (downloadJavaForMinecraftVersionMojang env os arch mc dir fs).2.1.isFile
          (dir ++ [filenameFromUrl url]) = false) := by
  rcases h with hnf | hvm
  · obtain ⟨h1, h2⟩ := downloadMojang_of_notFound env os arch mc dir fs req hjv hnf
    rw [h2]
    refine ⟨h1, fun q hq => Or.inl hq, fun q hq => hq, fun q hq => hq, ?_⟩
    intro hvm es url sha1 hce hcand
    exfalso
    obtain ⟨hmani, hparse, hkey, ⟨es2, url2, sha2, hce2, hcand2, hurl2, _⟩, _, _⟩ := hvm
    rcases hnf with hc | hc | hc | hc | hc
    · exact hc hmani
    · simp [hparse] at hc
    · exact hkey hc
    · simp [hce2] at hc
    · rw [hce2] at hce
      obtain rfl : es2 = es := by simpa using hce
      have := hc es2 hce2
      rw [hcand2] at this
      exact hurl2 (by simpa using this)
  · obtain ⟨hmani, hparse, hkey, ⟨es, url, sha1, hce, hcand, hurl, hsha⟩, hdl, hderr⟩ := hvm
    have hm := downloadMojang_verified_eq env os arch mc dir fs req es url sha1
      hjv hmani hparse hkey hce hcand hurl hdl hderr
    have h1 : (downloadJavaForMinecraftVersionMojang env os arch mc dir fs).1 = none := by
      rw [hm]
      by_cases hz : env.computedSha1 = "" <;> simp [hz, hsha]
    have h2 : (downloadJavaForMinecraftVersionMojang env os arch mc dir fs).2.1 =
        ((if (!(fs.existsPath dir)) = true then fs.createDirs dir else fs).addFile
          (dir ++ [filenameFromUrl url])).removeFile (dir ++ [filenameFromUrl url]) := by
      rw [hm]
      by_cases hz : env.computedSha1 = "" <;> simp [hz, hsha]
    rw [h2]
    refine ⟨h1, ?_, ?_, ?_, ?_⟩
    · intro q hq
      rw [FS.dirs_removeFile, FS.dirs_addFile] at hq
      exact FS.mem_dirs_createDirsIf_sub hq
    · intro q hq
      rw [FS.dirs_removeFile, FS.dirs_addFile]
      exact FS.mem_dirs_createDirsIf_mono hq
    · intro q hq
      rw [FS.mem_files_removeFile, FS.mem_files_addFile, FS.files_createDirsIf] at hq
      rcases hq with ⟨hq1 | hq2, hne⟩
      · exact hq1
      · exact absurd hq2 hne
    · intro _ es2 url2 sha2 hce2 hcand2
      rw [hce] at hce2
      obtain rfl : es = es2 := by simpa using hce2
      rw [hcand] at hcand2
      obtain ⟨rfl, rfl⟩ : url = url2 ∧ sha1 = sha2 := by simpa using hcand2
      exact FS.isFile_removeFile_self _ _

/-- Every record produced by a fresh registration has the executable's
grandparent as home, the requirement's component and major version, and
the chosen source; it is appended to the registry. -/
theorem registerAfterDownload_some (env : EnsureEnv) (config : Config)
    (registry : List JavaRuntime) (req : JavaVersion) (p : Path) (src : String)
    (fs2 : FS) (ev2 : List Event) (rt : JavaRuntime)
    (hres : (registerAfterDownload env config registry req p src fs2 ev2).result = some rt) :
    rt.homePath = pathParent (pathParent rt.javaExecutablePath) ∧
    rt.componentName = req.component ∧ rt.majorVersion = req.majorVersion ∧
    rt.source = src ∧
    (registerAfterDownload env config registry req p src fs2 ev2).registry =
      registry ++ [rt] := by
  simp only [registerAfterDownload] at hres ⊢
  cases hext : (extractJavaArchive env.extract fs2 p
      (getExtractionPathForRuntime config.javaRuntimesDir req)).1 with
  | false =>
    rw [if_neg (by simp [hext])] at hres
    simp at hres
  | true =>
    rw [if_pos hext] at hres
    cases hfind : findJavaExecutable (extractJavaArchive env.extract fs2 p
        (getExtractionPathForRuntime config.javaRuntimesDir req)).2 env.isWinBuild env.os
        (getExtractionPathForRuntime config.javaRuntimesDir req) with
    | none =>
      rw [hfind] at hres
      simp at hres
    | some je =>
      rw [hfind] at hres
      simp only [Option.some_inj] at hres
      subst hres
      exact ⟨rfl, rfl, rfl, rfl, rfl⟩

/-- A fresh registration that fails leaves the registry unchanged. -/
theorem registerAfterDownload_none (env : EnsureEnv) (config : Config)
    (registry : List JavaRuntime) (req : JavaVersion) (p : Path) (src : String)
    (fs2 : FS) (ev2 : List Event)
    (hres : (registerAfterDownload env config registry req p src fs2 ev2).result = none) :
    (registerAfterDownload env config registry req p src fs2 ev2).registry = registry := by
  simp only [registerAfterDownload] at hres ⊢
  cases hext : (extractJavaArchive env.extract fs2 p
      (getExtractionPathForRuntime config.javaRuntimesDir req)).1 with
  | false =>
    rfl
  | true =>
    rw [if_pos hext] at hres
    cases hfind : findJavaExecutable (extractJavaArchive env.extract fs2 p
        (getExtractionPathForRuntime config.javaRuntimesDir req)).2 env.isWinBuild env.os
        (getExtractionPathForRuntime config.javaRuntimesDir req) with
    | none => rfl
    | some je =>
      rw [hfind] at hres
      simp at hres

/-- C6: Directory naming round-trips through the startup scan: for
component="java-runtime-gamma" and majorVersion=17 the extraction
directory name is exactly "java-runtime-gamma_17", and parsing that name
during the startup scan (majorVersion from the text after the last '_',
component from the remainder) reconstructs
componentName="java-runtime-gamma" and majorVersion=17 (shown both on the
name parser and on a full scan of a root holding that directory). -/
theorem C6_directory_naming_round_trip :
    getExtractionPathForRuntime fixRoot { component := "java-runtime-gamma", majorVersion := 17 } =
      fixRoot ++ ["java-runtime-gamma_17"] ∧
    parseRuntimeDirName "java-runtime-gamma_17" =
      { source := "user_provided", component := "java-runtime-gamma", majorVersion := 17 } ∧
    scanForExistingRuntimes fixRoundTripFs false .LINUX fixRoot =
      [{ homePath := fixRoot ++ ["java-runtime-gamma_17"],
         javaExecutablePath := fixRoot ++ ["java-runtime-gamma_17", "bin", "java"],
         majorVersion := 17, componentName := "java-runtime-gamma",
         source := "user_provided" }] := by
  refine ⟨by decide, by decide, by decide⟩

/-- C9: When scanning Mojang manifest entries, a version name encoded as
the string "17.0.1" is parsed as major version 17; an integer-encoded name
is used directly (for values that fit an unsigned int); a name with no dot
is parsed as a whole integer; and an entry whose name fails to parse
(major version left 0) is skipped without aborting the scan of the
remaining entries, for any nonzero required major version. -/
theorem C9_mojang_version_name_parsing :
    entryMajorVersion { versionName := some (.str "17.0.1"), manifestFields := none } = 17 ∧
    (∀ n : Nat, n < UINT_MOD →
      entryMajorVersion { versionName := some (.num n), manifestFields := none } = n) ∧
    entryMajorVersion { versionName := some (.str "17"), manifestFields := none } = 17 ∧
    (∀ (requiredMajor : Nat) (e : MojangManifestEntry) (rest : List MojangManifestEntry),
      requiredMajor ≠ 0 → entryMajorVersion e = 0 →
      findMojangCandidate requiredMajor (e :: rest) = findMojangCandidate requiredMajor rest) := by
  refine ⟨by decide, ?_, by decide, ?_⟩
  · intro n hn
    simp only [entryMajorVersion]
    exact Nat.mod_eq_of_lt hn
  · intro requiredMajor e rest hreq he
    simp only [findMojangCandidate, he]
    rw [if_neg (fun h => hreq h.symm)]

/-- C9 witness: the theorem applied at an unparseable entry followed by a
matching entry, and at the integer-encoded name 5. -/
theorem C9_mojang_version_name_parsing_witness :
    findMojangCandidate 17
        ({ versionName := some (.str "not-a-number"), manifestFields := some ("u", "s") } ::
          [{ versionName := some (.num 17), manifestFields := some ("u2", "s2") }]) =
      findMojangCandidate 17
        [{ versionName := some (.num 17), manifestFields := some ("u2", "s2") }] ∧
    entryMajorVersion { versionName := some (.num 5), manifestFields := none } = 5 :=
  ⟨C9_mojang_version_name_parsing.2.2.2 17
      { versionName := some (.str "not-a-number"), manifestFields := some ("u", "s") }
      [{ versionName := some (.num 17), manifestFields := some ("u2", "s2") }]
      (by decide) (by decide),
    C9_mojang_version_name_parsing.2.1 5 (by decide)⟩

/-- C10: For every input directory, findJavaExecutable returns either the
empty path (none) or a path that exists as a regular file, named javaw.exe
or java.exe inside the resolved bin directory on a Windows build and java
on other platforms; it never returns a non-empty path to a missing or
non-regular file. -/
theorem C10_findJavaExecutable_sound (fs : FS) (isWinBuild : Bool) (os : OperatingSystem)
    (dir : Path) (p : Path) (h : findJavaExecutable fs isWinBuild os dir = some p) :
    fs.isFile p = true ∧ fs.isDir (pathParent p) = true ∧
      ((isWinBuild = true ∧ (pathFilename p = "javaw.exe" ∨ pathFilename p = "java.exe")) ∨
        (isWinBuild = false ∧ pathFilename p = "java")) := by
  simp only [findJavaExecutable] at h
  split at h
  · exact absurd h (by simp)
  · split at h
    · exact absurd h (by simp)
    · rename_i javaHomePath heq
      split at h
      · exact absurd h (by simp)
      · rename_i hbin
        split at h
        · rename_i hfile
          cases h
          have hbin' : fs.isDir (resolvedBinDir fs os javaHomePath) = true := by
            simpa using hbin
          cases isWinBuild with
          | false =>
            simp only [javaExeCandidate, Bool.false_eq_true, if_false] at hfile ⊢
            refine ⟨hfile, ?_, Or.inr ⟨by simp, ?_⟩⟩
            · simpa [pathParent, List.dropLast_concat] using hbin'
            · simp [pathFilename, List.getLastD_concat]
          | true =>
            simp only [javaExeCandidate, if_true] at hfile ⊢
            by_cases hww :
                fs.isFile (resolvedBinDir fs os javaHomePath ++ ["javaw.exe"]) = true
            · rw [if_pos hww] at hfile ⊢
              refine ⟨hfile, ?_, Or.inl ⟨by simp, Or.inl ?_⟩⟩
              · simpa [pathParent, List.dropLast_concat] using hbin'
              · simp [pathFilename, List.getLastD_concat]
            · rw [if_neg hww] at hfile ⊢
              refine ⟨hfile, ?_, Or.inl ⟨by simp, Or.inr ?_⟩⟩
              · simpa [pathParent, List.dropLast_concat] using hbin'
              · simp [pathFilename, List.getLastD_concat]
        · exact absurd h (by simp)

/-- C10 witness: the theorem applied to a concrete Linux-side filesystem
holding `r/bin/java`. -/
theorem C10_findJavaExecutable_sound_witness :
    let fsW : FS := { dirs := [["r"], ["r", "bin"]], files := [["r", "bin", "java"]] }
    fsW.isFile (["r", "bin", "java"] : Path) = true ∧
      fsW.isDir (pathParent (["r", "bin", "java"] : Path)) = true ∧
      ((false = true ∧ (pathFilename (["r", "bin", "java"] : Path) = "javaw.exe" ∨
          pathFilename (["r", "bin", "java"] : Path) = "java.exe")) ∨
        (false = false ∧ pathFilename (["r", "bin", "java"] : Path) = "java")) :=
  C10_findJavaExecutable_sound
    { dirs := [["r"], ["r", "bin"]], files := [["r", "bin", "java"]] }
    false .LINUX ["r"] ["r", "bin", "java"] (by decide)

/-- C3 counterexample: the digests "ab12cd" (computed) and "AB12CD"
(expected) differ only in hex-letter casing, yet the Adoptium verification
rejects the download: the result is absent and the downloaded file is
removed, so the comparison is not case-insensitive as the claim states. -/
theorem C3_digest_comparison_counterexample :
    specCaseInsensitiveDigestEq "ab12cd" "AB12CD" = true ∧
    (downloadJavaForSpecificVersionAdoptium fixAdoptiumCaseMismatch .LINUX .X64
        { component := "java-runtime-gamma", majorVersion := 17 }
        (fixRoot ++ ["_downloads", "adoptium"]) fixFs0).1 = none ∧
    (downloadJavaForSpecificVersionAdoptium fixAdoptiumCaseMismatch .LINUX .X64
        { component := "java-runtime-gamma", majorVersion := 17 }
        (fixRoot ++ ["_downloads", "adoptium"]) fixFs0).2.1.isFile
      (fixRoot ++ ["_downloads", "adoptium", "jre.zip"]) = false := by
  refine ⟨by decide, by decide, by decide⟩

/-- C3 amended: the digest comparison is exact string equality, not
case-insensitive: on both the Adoptium (SHA-256) and Mojang (SHA-1) paths,
a download that reaches verification is accepted exactly when the computed
digest equals the expected digest as strings (and the digest computation
did not fail), and on any string mismatch the file is removed from disk
and the result is absent. -/
theorem C3_digest_comparison_exact (aEnv : AdoptiumEnv) (aos : OperatingSystem)
    (aarch : Architecture) (areq : JavaVersion) (aDir : Path) (afs : FS)
    (link name checksum : String)
    (hos : ¬ getOSStringForAdoptium aos = "")
    (harch : ¬ getArchStringForAdoptium aarch = "")
    (hapi : aEnv.apiStatus = 200)
    (hjson : aEnv.apiJson = .firstBuild (some (link, name, checksum)))
    (hadl : aEnv.downloadStatus = 200) (haderr : aEnv.downloadError = "")
    (mEnv : MojangEnv) (mos : OperatingSystem) (march : Architecture) (mc : Version)
    (mreq : JavaVersion) (mDir : Path) (mfs : FS) (es : List MojangManifestEntry)
    (url sha1 : String)
    (hjv : mc.javaVersion = some mreq)
    (hmani : mEnv.manifestStatus = 200) (hparse : mEnv.manifestParseOk = true)
    (hkey : ¬ getOSStringForJavaManifest mos march = "unknown-os-arch-mojang")
    (hce : mEnv.componentEntries = some es)
    (hcand : findMojangCandidate mreq.majorVersion es = some (url, sha1))
    (hurl : ¬ url = "")
    (hmdl : mEnv.downloadStatus = 200) (hmderr : mEnv.downloadError = "") :
    ((downloadJavaForSpecificVersionAdoptium aEnv aos aarch areq aDir afs).1.isSome ↔
      (¬ aEnv.computedSha256 = "" ∧ aEnv.computedSha256 = checksum)) ∧
    (¬ aEnv.computedSha256 = checksum →
      (downloadJavaForSpecificVersionAdoptium aEnv aos aarch areq aDir afs).1 = none ∧
      (downloadJavaForSpecificVersionAdoptium aEnv aos aarch areq aDir afs).2.1.isFile
        (aDir ++ [name]) = false) ∧
    ((downloadJavaForMinecraftVersionMojang mEnv mos march mc mDir mfs).1.isSome ↔
      (¬ mEnv.computedSha1 = "" ∧ mEnv.computedSha1 = sha1)) ∧
    (¬ mEnv.computedSha1 = sha1 →
      (downloadJavaForMinecraftVersionMojang mEnv mos march mc mDir mfs).1 = none ∧
      (downloadJavaForMinecraftVersionMojang mEnv mos march mc mDir mfs).2.1.isFile
        (mDir ++ [filenameFromUrl url]) = false) := by
  have ha := downloadAdoptium_verified_eq aEnv aos aarch areq aDir afs link name checksum
    hos harch hapi hjson hadl haderr
  have hm := downloadMojang_verified_eq mEnv mos march mc mDir mfs mreq es url sha1
    hjv hmani hparse hkey hce hcand hurl hmdl hmderr
  rw [ha, hm]
  refine ⟨?_, ?_, ?_, ?_⟩
  · by_cases h1 : aEnv.computedSha256 = ""
    · simp [h1]
    · by_cases h2 : aEnv.computedSha256 = checksum
      · simp [h1, h2]
      · simp [h1, h2]
  · intro h2
    constructor
    · by_cases h1 : aEnv.computedSha256 = "" <;> simp [h1, h2]
    · by_cases h1 : aEnv.computedSha256 = "" <;>
        simp [h1, h2, FS.isFile_removeFile_self]
  · by_cases h1 : mEnv.computedSha1 = ""
    · simp [h1]
    · by_cases h2 : mEnv.computedSha1 = sha1
      · simp [h1, h2]
      · simp [h1, h2]
  · intro h2
    constructor
    · by_cases h1 : mEnv.computedSha1 = "" <;> simp [h1, h2]
    · by_cases h1 : mEnv.computedSha1 = "" <;>
        simp [h1, h2, FS.isFile_removeFile_self]

/-- C3 amended witness: the theorem applied to concrete mismatching runs
on both paths. -/
theorem C3_digest_comparison_exact_witness :
    ((downloadJavaForSpecificVersionAdoptium fixAdoptiumMismatch .LINUX .X64
        { component := "java-runtime-gamma", majorVersion := 17 }
        (fixRoot ++ ["_downloads", "adoptium"]) fixFs0).1 = none ∧
      (downloadJavaForSpecificVersionAdoptium fixAdoptiumMismatch .LINUX .X64
        { component := "java-runtime-gamma", majorVersion := 17 }
        (fixRoot ++ ["_downloads", "adoptium"]) fixFs0).2.1.isFile
        (fixRoot ++ ["_downloads", "adoptium", "jre.zip"]) = false) ∧
    ((downloadJavaForMinecraftVersionMojang fixMojangMismatch .LINUX .X64 fixMc
        (fixRoot ++ ["_downloads", "mojang"]) fixFs0).1 = none ∧
      (downloadJavaForMinecraftVersionMojang fixMojangMismatch .LINUX .X64 fixMc
        (fixRoot ++ ["_downloads", "mojang"]) fixFs0).2.1.isFile
        (fixRoot ++ ["_downloads", "mojang", "jre17.zip"]) = false) := by
  have h := C3_digest_comparison_exact fixAdoptiumMismatch .LINUX .X64
    { component := "java-runtime-gamma", majorVersion := 17 }
    (fixRoot ++ ["_downloads", "adoptium"]) fixFs0 "https://a/jre.zip" "jre.zip" "aa"
    (by decide) (by decide) (by decide) (by decide) (by decide) (by decide)
    fixMojangMismatch .LINUX .X64 fixMc
    { component := "java-runtime-gamma", majorVersion := 17 }
    (fixRoot ++ ["_downloads", "mojang"]) fixFs0
    [{ versionName := some (.num 17), manifestFields := some ("http://m/x/jre17.zip", "s1") }]
    "http://m/x/jre17.zip" "s1"
    (by decide) (by decide) (by decide) (by decide) (by decide) (by decide) (by decide)
    (by decide) (by decide)
  exact ⟨h.2.1 (by decide), h.2.2.2 (by decide)⟩

/-- C4 counterexample: an extraction that fails with an error code from
`mz_zip_reader_extract_all_cb` reports failure but leaves the destination
directory on disk, contradicting the claim that every failed extraction
removes the destination directory. -/
theorem C4_extract_failure_counterexample :
    (extractJavaArchive fixExtractErrCode fixFs0 (fixRoot ++ ["a.zip"])
        (fixRoot ++ ["java-runtime-gamma_17"])).1 = false ∧
    (extractJavaArchive fixExtractErrCode fixFs0 (fixRoot ++ ["a.zip"])
        (fixRoot ++ ["java-runtime-gamma_17"])).2.isDir
      (fixRoot ++ ["java-runtime-gamma_17"]) = true := by
  refine ⟨by decide, by decide⟩

/-- C4 amended: extractJavaArchive removes the destination directory only
when an exception escapes the extraction (the catch block); when the
failure is an error code from reader creation, archive opening, or the
entry-extraction call, the function reports failure with the destination
directory left in place. -/
theorem C4_extract_failure_cleanup (env : ExtractEnv) (fs : FS)
    (archivePath extractionDir : Path) (hne : extractionDir ≠ []) :
    ((env.readerOk = true ∧ env.openOk = true ∧ env.extractThrows = true) →
      (extractJavaArchive env fs archivePath extractionDir).1 = false ∧
      (extractJavaArchive env fs archivePath extractionDir).2.isDir extractionDir = false) ∧
    ((env.readerOk = false ∨ (env.readerOk = true ∧ env.openOk = false) ∨
        (env.readerOk = true ∧ env.openOk = true ∧ env.extractThrows = false ∧
          env.extractErr = true)) →
      (extractJavaArchive env fs archivePath extractionDir).1 = false ∧
      (extractJavaArchive env fs archivePath extractionDir).2.isDir extractionDir = true) := by
  have hdir2 : extractionDir ∈
      ((if fs.existsPath extractionDir = true then fs.removeAllUnder extractionDir
        else fs).createDirs extractionDir).dirs :=
    FS.mem_dirs_createDirs.mpr (Or.inr ⟨hne, isPathPrefixOf_refl _⟩)
  constructor
  · rintro ⟨hr, ho, ht⟩
    simp only [extractJavaArchive]
    rw [if_neg (by simp [hr]), if_neg (by simp [ho]), if_pos ht]
    exact ⟨rfl, FS.isDir_removeAllUnder_self _ _⟩
  · rintro (hr | ⟨hr, ho⟩ | ⟨hr, ho, ht, he⟩)
    · simp only [extractJavaArchive]
      rw [if_pos (by simp [hr])]
      exact ⟨rfl, FS.isDir_iff_mem.mpr hdir2⟩
    · simp only [extractJavaArchive]
      rw [if_neg (by simp [hr]), if_pos (by simp [ho])]
      exact ⟨rfl, FS.isDir_iff_mem.mpr hdir2⟩
    · simp only [extractJavaArchive]
      rw [if_neg (by simp [hr]), if_neg (by simp [ho]), if_neg (by simp [ht])]
      refine ⟨by simp [he], ?_⟩
      refine FS.isDir_iff_mem.mpr ?_
      rw [FS.dirs_foldl_addFile]
      exact FS.mem_dirs_foldl_createDirs_mono _ _ _ _ hdir2

/-- C4 amended witness: the theorem applied to a throwing run (directory
removed) and to an error-code run (directory left in place). -/
theorem C4_extract_failure_cleanup_witness :
    ((extractJavaArchive fixExtractThrows fixFs0 (fixRoot ++ ["a.zip"])
        (fixRoot ++ ["jre-legacy_8"])).1 = false ∧
      (extractJavaArchive fixExtractThrows fixFs0 (fixRoot ++ ["a.zip"])
        (fixRoot ++ ["jre-legacy_8"])).2.isDir (fixRoot ++ ["jre-legacy_8"]) = false) ∧
    ((extractJavaArchive fixExtractErrCode fixFs0 (fixRoot ++ ["b.zip"])
        (fixRoot ++ ["jre-legacy_8"])).1 = false ∧
      (extractJavaArchive fixExtractErrCode fixFs0 (fixRoot ++ ["b.zip"])
        (fixRoot ++ ["jre-legacy_8"])).2.isDir (fixRoot ++ ["jre-legacy_8"]) = true) :=
  ⟨(C4_extract_failure_cleanup fixExtractThrows fixFs0 (fixRoot ++ ["a.zip"])
      (fixRoot ++ ["jre-legacy_8"]) (by decide)).1 ⟨rfl, rfl, rfl⟩,
    (C4_extract_failure_cleanup fixExtractErrCode fixFs0 (fixRoot ++ ["b.zip"])
      (fixRoot ++ ["jre-legacy_8"]) (by decide)).2 (Or.inr (Or.inr ⟨rfl, rfl, rfl, rfl⟩))⟩

/-- C7 counterexample: a successful resolution of a nested archive (single
top folder `jdk`) registers home = the executable's grandparent
`.../java-runtime-gamma_17/jdk`, although that directory has no `lib`
subdirectory; no fallback to the extraction target directory happens, so
the claimed `lib`-heuristic does not exist in the code. -/
theorem C7_registration_home_counterexample :
    (ensureJavaForMinecraftVersion fixEnvAdoptiumNested fixConfig [] fixFs0 fixMc).result =
      some fixRtNested ∧
    fixRtNested.homePath = fixRoot ++ ["java-runtime-gamma_17", "jdk"] ∧
    (ensureJavaForMinecraftVersion fixEnvAdoptiumNested fixConfig [] fixFs0 fixMc).fs.isDir
      (fixRoot ++ ["java-runtime-gamma_17", "jdk", "lib"]) = false ∧
    fixRoot ++ ["java-runtime-gamma_17", "jdk"] ≠
      getExtractionPathForRuntime fixRoot { component := "java-runtime-gamma",
                                            majorVersion := 17 } := by
  refine ⟨by decide, by decide, by decide⟩

/-- C7 amended: at a fresh registration (registry miss) the record's home
path is always the executable's grandparent directory (two levels up from
`.../bin/java`); no `lib`-subdirectory check and no fallback to the
extraction target directory is performed. -/
theorem C7_registration_home_is_grandparent (env : EnsureEnv) (config : Config)
    (registry : List JavaRuntime) (fs : FS) (mc : Version) (req : JavaVersion)
    (rt : JavaRuntime)
    (hjv : mc.javaVersion = some req)
    (hmiss : registry.find? (runtimeMatches req) = none)
    (hres : (ensureJavaForMinecraftVersion env config registry fs mc).result = some rt) :
    rt.homePath = pathParent (pathParent rt.javaExecutablePath) := by
  cases hA : (downloadJavaForSpecificVersionAdoptium env.adoptium env.os env.arch req
      (config.javaRuntimesDir ++ ["_downloads", "adoptium"]) fs).1 with
  | some p =>
    have hrunEq : ensureJavaForMinecraftVersion env config registry fs mc =
        registerAfterDownload env config registry req p "adoptium"
          (downloadJavaForSpecificVersionAdoptium env.adoptium env.os env.arch req
            (config.javaRuntimesDir ++ ["_downloads", "adoptium"]) fs).2.1
          (downloadJavaForSpecificVersionAdoptium env.adoptium env.os env.arch req
            (config.javaRuntimesDir ++ ["_downloads", "adoptium"]) fs).2.2 := by
      simp only [ensureJavaForMinecraftVersion, hjv, hmiss, hA]
    rw [hrunEq] at hres
    exact (registerAfterDownload_some _ _ _ _ _ _ _ _ _ hres).1
  | none =>
    cases hM : (downloadJavaForMinecraftVersionMojang env.mojang env.os env.arch mc
        (config.javaRuntimesDir ++ ["_downloads", "mojang"])
        (downloadJavaForSpecificVersionAdoptium env.adoptium env.os env.arch req
          (config.javaRuntimesDir ++ ["_downloads", "adoptium"]) fs).2.1).1 with
    | some p =>
      have hrunEq : ensureJavaForMinecraftVersion env config registry fs mc =
          registerAfterDownload env config registry req p "mojang"
            (downloadJavaForMinecraftVersionMojang env.mojang env.os env.arch mc
              (config.javaRuntimesDir ++ ["_downloads", "mojang"])
              (downloadJavaForSpecificVersionAdoptium env.adoptium env.os env.arch req
                (config.javaRuntimesDir ++ ["_downloads", "adoptium"]) fs).2.1).2.1
            ((downloadJavaForSpecificVersionAdoptium env.adoptium env.os env.arch req
                (config.javaRuntimesDir ++ ["_downloads", "adoptium"]) fs).2.2 ++
              (downloadJavaForMinecraftVersionMojang env.mojang env.os env.arch mc
                (config.javaRuntimesDir ++ ["_downloads", "mojang"])
                (downloadJavaForSpecificVersionAdoptium env.adoptium env.os env.arch req
                  (config.javaRuntimesDir ++ ["_downloads", "adoptium"]) fs).2.1).2.2) := by
        simp only [ensureJavaForMinecraftVersion, hjv, hmiss, hA, hM]
      rw [hrunEq] at hres
      exact (registerAfterDownload_some _ _ _ _ _ _ _ _ _ hres).1
    | none =>
      have hrunEq : (ensureJavaForMinecraftVersion env config registry fs mc).result = none := by
        simp only [ensureJavaForMinecraftVersion, hjv, hmiss, hA, hM]
      rw [hrunEq] at hres
      cases hres

/-- C7 amended witness: the theorem applied to the concrete nested-archive
run of the counterexample. -/
theorem C7_registration_home_is_grandparent_witness :
    fixRtNested.homePath = pathParent (pathParent fixRtNested.javaExecutablePath) :=
  C7_registration_home_is_grandparent fixEnvAdoptiumNested fixConfig [] fixFs0 fixMc
    { component := "java-runtime-gamma", majorVersion := 17 } fixRtNested
    rfl rfl (by decide)

/-- C8 counterexample: a startup scan of a root holding both `jre-legacy_8`
and `mojang_jre-legacy_8` (each with a usable executable) produces two
registry records with the same (component, majorVersion) = ("jre-legacy",
8) — nothing is deduplicated, contradicting the at-most-one invariant. -/
theorem C8_registry_duplicates_counterexample :
    (scanForExistingRuntimes fixScanFs false .LINUX fixRoot).map
      (fun r => (r.componentName, r.majorVersion)) = [("jre-legacy", 8), ("jre-legacy", 8)] ∧
    (scanForExistingRuntimes fixScanFs false .LINUX fixRoot).map (fun r => r.source) =
      ["user_provided", "mojang"] := by
  refine ⟨by decide, by decide⟩

/-- C8 amended: the startup scan does not deduplicate — a disk rescan can
leave several records with the same (component, majorVersion) in scan
order — but an ensure call preserves per-pair uniqueness: it appends a
record only when no record with that pair is present (lookups return the
first match), so ensure never introduces a duplicate. -/
theorem C8_ensure_preserves_uniqueness (env : EnsureEnv) (config : Config)
    (registry : List JavaRuntime) (fs : FS) (mc : Version)
    (huniq : registry.Pairwise (fun a b =>
      ¬(a.componentName = b.componentName ∧ a.majorVersion = b.majorVersion))) :
    (ensureJavaForMinecraftVersion env config registry fs mc).registry.Pairwise (fun a b =>
      ¬(a.componentName = b.componentName ∧ a.majorVersion = b.majorVersion)) := by
  cases hjv : mc.javaVersion with
  | none =>
    have hrunEq : (ensureJavaForMinecraftVersion env config registry fs mc).registry =
        registry := by
      simp only [ensureJavaForMinecraftVersion, hjv]
    rw [hrunEq]
    exact huniq
  | some req =>
    cases hfind : registry.find? (runtimeMatches req) with
    | some r =>
      have hrunEq : (ensureJavaForMinecraftVersion env config registry fs mc).registry =
          registry := by
        simp only [ensureJavaForMinecraftVersion, hjv, hfind]
      rw [hrunEq]
      exact huniq
    | none =>
      have hnomatch : ∀ x ∈ registry, ¬ runtimeMatches req x = true :=
        List.find?_eq_none.mp hfind
      have hkey : ∀ rt : JavaRuntime,
          rt.componentName = req.component → rt.majorVersion = req.majorVersion →
          (registry ++ [rt]).Pairwise (fun a b =>
            ¬(a.componentName = b.componentName ∧ a.majorVersion = b.majorVersion)) := by
        intro rt hcomp hmaj
        refine List.pairwise_append.mpr ⟨huniq, by simp, ?_⟩
        intro a ha b hb
        simp only [List.mem_singleton] at hb
        subst hb
        rintro ⟨h1, h2⟩
        exact hnomatch a ha (by simp [runtimeMatches, h1, h2, hcomp, hmaj])
      have hreg : ∀ (p : Path) (src : String) (fs2 : FS) (ev2 : List Event),
          (registerAfterDownload env config registry req p src fs2 ev2).registry.Pairwise
            (fun a b =>
              ¬(a.componentName = b.componentName ∧ a.majorVersion = b.majorVersion)) := by
        intro p src fs2 ev2
        cases hres : (registerAfterDownload env config registry req p src fs2 ev2).result with
        | none => rw [registerAfterDownload_none _ _ _ _ _ _ _ _ hres]; exact huniq
        | some rt =>
          obtain ⟨_, hcomp, hmaj, _, hregEq⟩ :=
            registerAfterDownload_some _ _ _ _ _ _ _ _ _ hres
          rw [hregEq]
          exact hkey rt hcomp hmaj
      cases hA : (downloadJavaForSpecificVersionAdoptium env.adoptium env.os env.arch req
          (config.javaRuntimesDir ++ ["_downloads", "adoptium"]) fs).1 with
      | some p =>
        have hrunEq : ensureJavaForMinecraftVersion env config registry fs mc =
            registerAfterDownload env config registry req p "adoptium"
              (downloadJavaForSpecificVersionAdoptium env.adoptium env.os env.arch req
                (config.javaRuntimesDir ++ ["_downloads", "adoptium"]) fs).2.1
              (downloadJavaForSpecificVersionAdoptium env.adoptium env.os env.arch req
                (config.javaRuntimesDir ++ ["_downloads", "adoptium"]) fs).2.2 := by
          simp only [ensureJavaForMinecraftVersion, hjv, hfind, hA]
        rw [hrunEq]
        exact hreg _ _ _ _
      | none =>
        cases hM : (downloadJavaForMinecraftVersionMojang env.mojang env.os env.arch mc
            (config.javaRuntimesDir ++ ["_downloads", "mojang"])
            (downloadJavaForSpecificVersionAdoptium env.adoptium env.os env.arch req
              (config.javaRuntimesDir ++ ["_downloads", "adoptium"]) fs).2.1).1 with
        | some p =>
          have hrunEq : ensureJavaForMinecraftVersion env config registry fs mc =
              registerAfterDownload env config registry req p "mojang"
                (downloadJavaForMinecraftVersionMojang env.mojang env.os env.arch mc
                  (config.javaRuntimesDir ++ ["_downloads", "mojang"])
                  (downloadJavaForSpecificVersionAdoptium env.adoptium env.os env.arch req
                    (config.javaRuntimesDir ++ ["_downloads", "adoptium"]) fs).2.1).2.1
                ((downloadJavaForSpecificVersionAdoptium env.adoptium env.os env.arch req
                    (config.javaRuntimesDir ++ ["_downloads", "adoptium"]) fs).2.2 ++
                  (downloadJavaForMinecraftVersionMojang env.mojang env.os env.arch mc
                    (config.javaRuntimesDir ++ ["_downloads", "mojang"])
                    (downloadJavaForSpecificVersionAdoptium env.adoptium env.os env.arch req
                      (config.javaRuntimesDir ++ ["_downloads", "adoptium"]) fs).2.1).2.2) := by
            simp only [ensureJavaForMinecraftVersion, hjv, hfind, hA, hM]
          rw [hrunEq]
          exact hreg _ _ _ _
        | none =>
          have hrunEq : (ensureJavaForMinecraftVersion env config registry fs mc).registry =
              registry := by
            simp only [ensureJavaForMinecraftVersion, hjv, hfind, hA, hM]
          rw [hrunEq]
          exact huniq

/-- C8 amended witness: the theorem applied to an empty registry and a
fully successful concrete resolution. -/
theorem C8_ensure_preserves_uniqueness_witness :
    (ensureJavaForMinecraftVersion fixEnvAdoptiumNested fixConfig [] fixFs0
        fixMc).registry.Pairwise (fun a b =>
      ¬(a.componentName = b.componentName ∧ a.majorVersion = b.majorVersion)) :=
  C8_ensure_preserves_uniqueness fixEnvAdoptiumNested fixConfig [] fixFs0 fixMc (by simp)

/-- C2: On a registry hit, ensureJavaForMinecraftVersion returns the
existing record with the registry and filesystem unchanged and no network
request, download, or extraction event; consequently, after any successful
ensure call, a second call with the same requirement is a registry hit
with zero I/O side effects (idempotence of the second call). -/
theorem C2_registry_hit_idempotent (env : EnsureEnv) (config : Config)
    (registry : List JavaRuntime) (fs : FS) (mc : Version) (req : JavaVersion)
    (hjv : mc.javaVersion = some req) :
    (∀ r, registry.find? (runtimeMatches req) = some r →
      ensureJavaForMinecraftVersion env config registry fs mc =
        { result := some r, registry := registry, fs := fs, events := [] }) ∧
    (∀ rt, (ensureJavaForMinecraftVersion env config registry fs mc).result = some rt →
      ∀ (env2 : EnsureEnv) (fs2 : FS),
        (ensureJavaForMinecraftVersion env2 config
          (ensureJavaForMinecraftVersion env config registry fs mc).registry fs2 mc).result.isSome
            = true ∧
        (ensureJavaForMinecraftVersion env2 config
          (ensureJavaForMinecraftVersion env config registry fs mc).registry fs2 mc).registry =
          (ensureJavaForMinecraftVersion env config registry fs mc).registry ∧
        (ensureJavaForMinecraftVersion env2 config
          (ensureJavaForMinecraftVersion env config registry fs mc).registry fs2 mc).fs = fs2 ∧
        (ensureJavaForMinecraftVersion env2 config
          (ensureJavaForMinecraftVersion env config registry fs mc).registry fs2 mc).events
          = []) := by
  constructor
  · intro r hfind
    simp only [ensureJavaForMinecraftVersion, hjv, hfind]
  · intro rt hres env2 fs2
    have hmem : ∃ x ∈ (ensureJavaForMinecraftVersion env config registry fs mc).registry,
        runtimeMatches req x = true := by
      cases hfind : registry.find? (runtimeMatches req) with
      | some r =>
        have hrunEq : ensureJavaForMinecraftVersion env config registry fs mc =
            { result := some r, registry := registry, fs := fs, events := [] } := by
          simp only [ensureJavaForMinecraftVersion, hjv, hfind]
        rw [hrunEq]
        exact ⟨r, List.mem_of_find?_eq_some hfind, List.find?_some hfind⟩
      | none =>
        cases hA : (downloadJavaForSpecificVersionAdoptium env.adoptium env.os env.arch req
            (config.javaRuntimesDir ++ ["_downloads", "adoptium"]) fs).1 with
        | some p =>
          have hrunEq : ensureJavaForMinecraftVersion env config registry fs mc =
              registerAfterDownload env config registry req p "adoptium"
                (downloadJavaForSpecificVersionAdoptium env.adoptium env.os env.arch req
                  (config.javaRuntimesDir ++ ["_downloads", "adoptium"]) fs).2.1
                (downloadJavaForSpecificVersionAdoptium env.adoptium env.os env.arch req
                  (config.javaRuntimesDir ++ ["_downloads", "adoptium"]) fs).2.2 := by
            simp only [ensureJavaForMinecraftVersion, hjv, hfind, hA]
          rw [hrunEq] at hres ⊢
          obtain ⟨_, hcomp, hmaj, _, hregEq⟩ :=
            registerAfterDownload_some _ _ _ _ _ _ _ _ _ hres
          rw [hregEq]
          exact ⟨rt, by simp, by simp [runtimeMatches, hcomp, hmaj]⟩
        | none =>
          cases hM : (downloadJavaForMinecraftVersionMojang env.mojang env.os env.arch mc
              (config.javaRuntimesDir ++ ["_downloads", "mojang"])
              (downloadJavaForSpecificVersionAdoptium env.adoptium env.os env.arch req
                (config.javaRuntimesDir ++ ["_downloads", "adoptium"]) fs).2.1).1 with
          | some p =>
            have hrunEq : ensureJavaForMinecraftVersion env config registry fs mc =
                registerAfterDownload env config registry req p "mojang"
                  (downloadJavaForMinecraftVersionMojang env.mojang env.os env.arch mc
                    (config.javaRuntimesDir ++ ["_downloads", "mojang"])
                    (downloadJavaForSpecificVersionAdoptium env.adoptium env.os env.arch req
                      (config.javaRuntimesDir ++ ["_downloads", "adoptium"]) fs).2.1).2.1
                  ((downloadJavaForSpecificVersionAdoptium env.adoptium env.os env.arch req
                      (config.javaRuntimesDir ++ ["_downloads", "adoptium"]) fs).2.2 ++
                    (downloadJavaForMinecraftVersionMojang env.mojang env.os env.arch mc
                      (config.javaRuntimesDir ++ ["_downloads", "mojang"])
                      (downloadJavaForSpecificVersionAdoptium env.adoptium env.os env.arch req
                        (config.javaRuntimesDir ++ ["_downloads", "adoptium"]) fs).2.1).2.2) := by
              simp only [ensureJavaForMinecraftVersion, hjv, hfind, hA, hM]
            rw [hrunEq] at hres ⊢
            obtain ⟨_, hcomp, hmaj, _, hregEq⟩ :=
              registerAfterDownload_some _ _ _ _ _ _ _ _ _ hres
            rw [hregEq]
            exact ⟨rt, by simp, by simp [runtimeMatches, hcomp, hmaj]⟩
          | none =>
            have hrunEq : (ensureJavaForMinecraftVersion env config registry fs mc).result =
                none := by
              simp only [ensureJavaForMinecraftVersion, hjv, hfind, hA, hM]
            rw [hrunEq] at hres
            cases hres
    obtain ⟨x, hx, hmatch⟩ := hmem
    set R := (ensureJavaForMinecraftVersion env config registry fs mc).registry with hR
    cases hfind2 : R.find? (runtimeMatches req) with
    | none =>
      exact absurd hmatch (List.find?_eq_none.mp hfind2 x hx)
    | some r2 =>
      have hrunEq2 : ensureJavaForMinecraftVersion env2 config R fs2 mc =
          { result := some r2, registry := R, fs := fs2, events := [] } := by
        simp only [ensureJavaForMinecraftVersion, hjv, hfind2]
      rw [hrunEq2]
      exact ⟨rfl, rfl, rfl, rfl⟩

/-- C2 witness: the theorem applied to a registry already holding a
matching record, and to the second call after a concrete successful
resolution. -/
theorem C2_registry_hit_idempotent_witness :
    (ensureJavaForMinecraftVersion fixEnvBothNotFound fixConfig [fixRtNested] fixFs0 fixMc =
      { result := some fixRtNested, registry := [fixRtNested], fs := fixFs0,
        events := [] }) ∧
    ((ensureJavaForMinecraftVersion fixEnvBothNotFound fixConfig
        (ensureJavaForMinecraftVersion fixEnvAdoptiumNested fixConfig [] fixFs0 fixMc).registry
        fixFs0 fixMc).result.isSome = true ∧
      (ensureJavaForMinecraftVersion fixEnvBothNotFound fixConfig
        (ensureJavaForMinecraftVersion fixEnvAdoptiumNested fixConfig [] fixFs0 fixMc).registry
        fixFs0 fixMc).registry =
        (ensureJavaForMinecraftVersion fixEnvAdoptiumNested fixConfig [] fixFs0 fixMc).registry ∧
      (ensureJavaForMinecraftVersion fixEnvBothNotFound fixConfig
        (ensureJavaForMinecraftVersion fixEnvAdoptiumNested fixConfig [] fixFs0 fixMc).registry
        fixFs0 fixMc).fs = fixFs0 ∧
      (ensureJavaForMinecraftVersion fixEnvBothNotFound fixConfig
        (ensureJavaForMinecraftVersion fixEnvAdoptiumNested fixConfig [] fixFs0 fixMc).registry
        fixFs0 fixMc).events = []) :=
  ⟨(C2_registry_hit_idempotent fixEnvBothNotFound fixConfig [fixRtNested] fixFs0 fixMc
      { component := "java-runtime-gamma", majorVersion := 17 } rfl).1 fixRtNested (by decide),
    (C2_registry_hit_idempotent fixEnvAdoptiumNested fixConfig [] fixFs0 fixMc
      { component := "java-runtime-gamma", majorVersion := 17 } rfl).2 fixRtNested (by decide)
      fixEnvBothNotFound fixFs0⟩

/-- C5: On a registry miss, Adoptium is tried first and Mojang second:
when Adoptium yields not-found, any record the call returns carries source
"mojang"; when both sources yield not-found, the result is absent and the
filesystem is unchanged, so no directory is created under the runtime
root. -/
theorem C5_fallback_ordering (env : EnsureEnv) (config : Config)
    (registry : List JavaRuntime) (fs : FS) (mc : Version) (req : JavaVersion)
    (hjv : mc.javaVersion = some req)
    (hmiss : registry.find? (runtimeMatches req) = none) :
    (adoptiumNotFound env.adoptium env.os env.arch →
      ∀ rt, (ensureJavaForMinecraftVersion env config registry fs mc).result = some rt →
        rt.source = "mojang") ∧
    (adoptiumNotFound env.adoptium env.os env.arch →
      mojangNotFound env.mojang env.os env.arch req.majorVersion →
      (ensureJavaForMinecraftVersion env config registry fs mc).result = none ∧
      (ensureJavaForMinecraftVersion env config registry fs mc).fs = fs) := by
  constructor
  · intro hnf rt hres
    obtain ⟨hA1, hA2⟩ := downloadAdoptium_of_notFound env.adoptium env.os env.arch req
      (config.javaRuntimesDir ++ ["_downloads", "adoptium"]) fs hnf
    cases hM : (downloadJavaForMinecraftVersionMojang env.mojang env.os env.arch mc
        (config.javaRuntimesDir ++ ["_downloads", "mojang"])
        (downloadJavaForSpecificVersionAdoptium env.adoptium env.os env.arch req
          (config.javaRuntimesDir ++ ["_downloads", "adoptium"]) fs).2.1).1 with
    | some p =>
      have hrunEq : ensureJavaForMinecraftVersion env config registry fs mc =
          registerAfterDownload env config registry req p "mojang"
            (downloadJavaForMinecraftVersionMojang env.mojang env.os env.arch mc
              (config.javaRuntimesDir ++ ["_downloads", "mojang"])
              (downloadJavaForSpecificVersionAdoptium env.adoptium env.os env.arch req
                (config.javaRuntimesDir ++ ["_downloads", "adoptium"]) fs).2.1).2.1
            ((downloadJavaForSpecificVersionAdoptium env.adoptium env.os env.arch req
                (config.javaRuntimesDir ++ ["_downloads", "adoptium"]) fs).2.2 ++
              (downloadJavaForMinecraftVersionMojang env.mojang env.os env.arch mc
                (config.javaRuntimesDir ++ ["_downloads", "mojang"])
                (downloadJavaForSpecificVersionAdoptium env.adoptium env.os env.arch req
                  (config.javaRuntimesDir ++ ["_downloads", "adoptium"]) fs).2.1).2.2) := by
        simp only [ensureJavaForMinecraftVersion, hjv, hmiss, hA1, hM]
      rw [hrunEq] at hres
      exact (registerAfterDownload_some _ _ _ _ _ _ _ _ _ hres).2.2.2.1
    | none =>
      have hrunEq : (ensureJavaForMinecraftVersion env config registry fs mc).result = none := by
        simp only [ensureJavaForMinecraftVersion, hjv, hmiss, hA1, hM]
      rw [hrunEq] at hres
      cases hres
  · intro hnf hnfM
    obtain ⟨hA1, hA2⟩ := downloadAdoptium_of_notFound env.adoptium env.os env.arch req
      (config.javaRuntimesDir ++ ["_downloads", "adoptium"]) fs hnf
    obtain ⟨hM1, hM2⟩ := downloadMojang_of_notFound env.mojang env.os env.arch mc
      (config.javaRuntimesDir ++ ["_downloads", "mojang"])
      (downloadJavaForSpecificVersionAdoptium env.adoptium env.os env.arch req
        (config.javaRuntimesDir ++ ["_downloads", "adoptium"]) fs).2.1 req hjv hnfM
    have hrunEq : ensureJavaForMinecraftVersion env config registry fs mc =
        { result := none, registry := registry,
          fs := (downloadJavaForMinecraftVersionMojang env.mojang env.os env.arch mc
            (config.javaRuntimesDir ++ ["_downloads", "mojang"])
            (downloadJavaForSpecificVersionAdoptium env.adoptium env.os env.arch req
              (config.javaRuntimesDir ++ ["_downloads", "adoptium"]) fs).2.1).2.1,
          events := (downloadJavaForSpecificVersionAdoptium env.adoptium env.os env.arch req
              (config.javaRuntimesDir ++ ["_downloads", "adoptium"]) fs).2.2 ++
            (downloadJavaForMinecraftVersionMojang env.mojang env.os env.arch mc
              (config.javaRuntimesDir ++ ["_downloads", "mojang"])
              (downloadJavaForSpecificVersionAdoptium env.adoptium env.os env.arch req
                (config.javaRuntimesDir ++ ["_downloads", "adoptium"]) fs).2.1).2.2 } := by
      simp only [ensureJavaForMinecraftVersion, hjv, hmiss, hA1, hM1]
    rw [hrunEq]
    exact ⟨rfl, hM2.trans hA2⟩

/-- C5 witness: the theorem applied to an Adoptium-not-found run in which
Mojang succeeds (the returned record's source is "mojang"), and to a run
in which both sources yield not-found (absent result, filesystem
unchanged). -/
theorem C5_fallback_ordering_witness :
    fixRtNested.source = "adoptium" ∧
    ((ensureJavaForMinecraftVersion fixEnvMojangFallback fixConfig [] fixFs0 fixMc).result.map
      (fun r => r.source)) = some "mojang" ∧
    (ensureJavaForMinecraftVersion fixEnvBothNotFound fixConfig [] fixFs0 fixMc).result = none ∧
    (ensureJavaForMinecraftVersion fixEnvBothNotFound fixConfig [] fixFs0 fixMc).fs = fixFs0 := by
  have h1 := (C5_fallback_ordering fixEnvMojangFallback fixConfig [] fixFs0 fixMc
    { component := "java-runtime-gamma", majorVersion := 17 } rfl rfl).1
    (Or.inr (Or.inr (Or.inl (by decide))))
  have h2 := (C5_fallback_ordering fixEnvBothNotFound fixConfig [] fixFs0 fixMc
    { component := "java-runtime-gamma", majorVersion := 17 } rfl rfl).2
    (Or.inr (Or.inr (Or.inl (by decide))))
    (Or.inl (by decide))
  refine ⟨rfl, ?_, h2.1, h2.2⟩
  have hs : (ensureJavaForMinecraftVersion fixEnvMojangFallback fixConfig [] fixFs0
      fixMc).result = some fixRtNestedMojang := by
    decide
  rw [hs]
  simp [h1 _ hs]

/-- C1: For every resolution attempt in which the computed digest of a
downloaded archive does not equal the expected digest from its source —
each source either yields not-found or downloads a candidate whose digest
mismatches — ensureJavaForMinecraftVersion returns absent, the extraction
directory under the runtime root is exactly as before the call (not
created), and every downloaded file is removed from disk. -/
theorem C1_integrity_gate (env : EnsureEnv) (config : Config)
    (registry : List JavaRuntime) (fs : FS) (mc : Version) (req : JavaVersion)
    (hjv : mc.javaVersion = some req)
    (hmiss : registry.find? (runtimeMatches req) = none)
    (hA : adoptiumNotFound env.adoptium env.os env.arch ∨
      adoptiumVerifyMismatch env.adoptium env.os env.arch)
    (hM : mojangNotFound env.mojang env.os env.arch req.majorVersion ∨
      mojangVerifyMismatch env.mojang env.os env.arch req.majorVersion) :
    (ensureJavaForMinecraftVersion env config registry fs mc).result = none ∧
    (ensureJavaForMinecraftVersion env config registry fs mc).fs.isDir
        (getExtractionPathForRuntime config.javaRuntimesDir req) =
      fs.isDir (getExtractionPathForRuntime config.javaRuntimesDir req) ∧
    (adoptiumVerifyMismatch env.adoptium env.os env.arch →
      ∀ link name checksum,
        env.adoptium.apiJson = .firstBuild (some (link, name, checksum)) →
        (ensureJavaForMinecraftVersion env config registry fs mc).fs.isFile
          (config.javaRuntimesDir ++ ["_downloads", "adoptium"] ++ [name]) = false) ∧
    (mojangVerifyMismatch env.mojang env.os env.arch req.majorVersion →
      ∀ es url sha1, env.mojang.componentEntries = some es →
        findMojangCandidate req.majorVersion es = some (url, sha1) →
        (ensureJavaForMinecraftVersion env config registry fs mc).fs.isFile
          (config.javaRuntimesDir ++ ["_downloads", "mojang"] ++ [filenameFromUrl url]) =
            false) := by
  obtain ⟨hA1, hAsub, hAmono, hAfilesub, hAfile⟩ :=
    downloadAdoptium_gate env.adoptium env.os env.arch req
      (config.javaRuntimesDir ++ ["_downloads", "adoptium"]) fs hA
  obtain ⟨hM1, hMsub, hMmono, hMfilesub, hMfile⟩ :=
    downloadMojang_gate env.mojang env.os env.arch mc
      (config.javaRuntimesDir ++ ["_downloads", "mojang"])
      ((downloadJavaForSpecificVersionAdoptium env.adoptium env.os env.arch req
        (config.javaRuntimesDir ++ ["_downloads", "adoptium"]) fs).2.1) req hjv hM
  have hrunEq : ensureJavaForMinecraftVersion env config registry fs mc =
      { result := none, registry := registry,
        fs := (downloadJavaForMinecraftVersionMojang env.mojang env.os env.arch mc
          (config.javaRuntimesDir ++ ["_downloads", "mojang"])
          (downloadJavaForSpecificVersionAdoptium env.adoptium env.os env.arch req
            (config.javaRuntimesDir ++ ["_downloads", "adoptium"]) fs).2.1).2.1,
        events := (downloadJavaForSpecificVersionAdoptium env.adoptium env.os env.arch req
            (config.javaRuntimesDir ++ ["_downloads", "adoptium"]) fs).2.2 ++
          (downloadJavaForMinecraftVersionMojang env.mojang env.os env.arch mc
            (config.javaRuntimesDir ++ ["_downloads", "mojang"])
            (downloadJavaForSpecificVersionAdoptium env.adoptium env.os env.arch req
              (config.javaRuntimesDir ++ ["_downloads", "adoptium"]) fs).2.1).2.2 } := by
    simp only [ensureJavaForMinecraftVersion, hjv, hmiss, hA1, hM1]
  refine ⟨by rw [hrunEq], ?_, ?_, ?_⟩
  · rw [hrunEq]
    simp only [getExtractionPathForRuntime]
    cases hfsb : fs.isDir
        (config.javaRuntimesDir ++ [req.component ++ "_" ++ natToString req.majorVersion]) with
    | true =>
      exact FS.isDir_iff_mem.mpr (hMmono _ (hAmono _ (FS.isDir_iff_mem.mp hfsb)))
    | false =>
      rw [Bool.eq_false_iff]
      intro htrue
      rcases hMsub _ (FS.isDir_iff_mem.mp htrue) with hq | ⟨_, hpre⟩
      · rcases hAsub _ hq with hq2 | ⟨_, hpre⟩
        · rw [← FS.isDir_iff_mem] at hq2
          simp [hfsb] at hq2
        · have hnp := extractionPath_not_prefix_of_download config.javaRuntimesDir
            req.component req.majorVersion "adoptium"
          simp [hnp] at hpre
      · have hnp := extractionPath_not_prefix_of_download config.javaRuntimesDir
          req.component req.majorVersion "mojang"
        simp [hnp] at hpre
  · intro hvm link name checksum hjson
    rw [hrunEq]
    rw [Bool.eq_false_iff]
    intro hmem
    have h' := hMfilesub _ (FS.isFile_iff_mem.mp hmem)
    have hAf := hAfile hvm link name checksum hjson
    rw [Bool.eq_false_iff] at hAf
    exact absurd (FS.isFile_iff_mem.mpr h') hAf
  · intro hvm es url sha1 hce hcand
    rw [hrunEq]
    exact hMfile hvm es url sha1 hce hcand

/-- C1 witness: the theorem applied to a run in which both sources
download and mismatch, and to a run in which Adoptium yields not-found
(HTTP 404) and only the Mojang archive fails verification. -/
theorem C1_integrity_gate_witness :
    ((ensureJavaForMinecraftVersion fixEnvBothMismatch fixConfig [] fixFs0 fixMc).result =
      none ∧
    (ensureJavaForMinecraftVersion fixEnvBothMismatch fixConfig [] fixFs0 fixMc).fs.isDir
        (getExtractionPathForRuntime fixRoot
          { component := "java-runtime-gamma", majorVersion := 17 }) =
      fixFs0.isDir (getExtractionPathForRuntime fixRoot
        { component := "java-runtime-gamma", majorVersion := 17 }) ∧
    (ensureJavaForMinecraftVersion fixEnvBothMismatch fixConfig [] fixFs0 fixMc).fs.isFile
      (fixRoot ++ ["_downloads", "adoptium"] ++ ["jre.zip"]) = false ∧
    (ensureJavaForMinecraftVersion fixEnvBothMismatch fixConfig [] fixFs0 fixMc).fs.isFile
      (fixRoot ++ ["_downloads", "mojang"] ++ [filenameFromUrl "http://m/x/jre17.zip"]) =
        false) ∧
    ((ensureJavaForMinecraftVersion fixEnvAdoNotFoundMojMismatch fixConfig [] fixFs0
        fixMc).result = none ∧
    (ensureJavaForMinecraftVersion fixEnvAdoNotFoundMojMismatch fixConfig [] fixFs0
        fixMc).fs.isFile
      (fixRoot ++ ["_downloads", "mojang"] ++ [filenameFromUrl "http://m/x/jre17.zip"]) =
        false) := by
  have hvmA : adoptiumVerifyMismatch fixAdoptiumMismatch .LINUX .X64 :=
    ⟨by decide, by decide, rfl, ⟨"https://a/jre.zip", "jre.zip", "aa", rfl, by decide⟩,
      rfl, rfl⟩
  have hvmM : mojangVerifyMismatch fixMojangMismatch .LINUX .X64 17 :=
    ⟨rfl, rfl, by decide,
      ⟨[{ versionName := some (.num 17), manifestFields := some ("http://m/x/jre17.zip", "s1") }],
        "http://m/x/jre17.zip", "s1", rfl, by decide, by decide, by decide⟩, rfl, rfl⟩
  have h1 := C1_integrity_gate fixEnvBothMismatch fixConfig [] fixFs0 fixMc
    { component := "java-runtime-gamma", majorVersion := 17 }
    rfl rfl (Or.inr hvmA) (Or.inr hvmM)
  have h2 := C1_integrity_gate fixEnvAdoNotFoundMojMismatch fixConfig [] fixFs0 fixMc
    { component := "java-runtime-gamma", majorVersion := 17 }
    rfl rfl (Or.inl (Or.inr (Or.inr (Or.inl (by decide))))) (Or.inr hvmM)
  refine ⟨⟨h1.1, h1.2.1, ?_, ?_⟩, h2.1, ?_⟩
  · exact h1.2.2.1 hvmA "https://a/jre.zip" "jre.zip" "aa" rfl
  · exact h1.2.2.2 hvmM
      [{ versionName := some (.num 17), manifestFields := some ("http://m/x/jre17.zip", "s1") }]
      "http://m/x/jre17.zip" "s1" rfl (by decide)
  · exact h2.2.2.2 hvmM
      [{ versionName := some (.num 17), manifestFields := some ("http://m/x/jre17.zip", "s1") }]
      "http://m/x/jre17.zip" "s1" rfl (by decide)

end Launcher
